import Mathlib

/-!
# gjsonquery: a shallow embedding of the matching engine

The Go package decides whether a document (`map[string]interface{}`) satisfies a
MongoDB-style query (`interface{}`).  This file embeds `gjsonquery.go` and
`comparators.go` function by function and proves properties of the embedding.

Modelling conventions

* `interface{}` values are the closed type `Value`; the `nil` interface is `Value.null`.
* A Go `map[string]interface{}` is an association list with pairwise distinct keys; the
  order of the list is the order in which a `range` loop happens to visit the keys.
* A Go call returning `(bool, error)` yields an `Outcome`: either the returned pair
  (`Outcome.ret`) or a run-time panic (`Outcome.panic`).
* `error` values are identified with their message.
* Go strings are Lean strings; indexing the first byte and ranging over runes coincide
  with the list of characters for the ASCII sentinels `!`, `$` and `.`.
-/

namespace Gjsonquery

/-! ## Value model -/

/-- Model of `float64`: not-a-number, an infinity, or the finite number `m * 2 ^ e`.
The sign of zero is not represented: no operation of the package observes it. -/
inductive F64 where
  | nan
  | inf (neg : Bool)
  | fin (m : Int) (e : Int)
deriving Repr

/-- Dynamically typed Go value (`interface{}`) as produced by decoding JSON. -/
inductive Value where
  | null
  | bool (b : Bool)
  | int (i : Int)
  | float (f : F64)
  | str (s : String)
  | list (xs : List Value)
  | map (kvs : List (String × Value))
deriving Repr

/-- Go `map[string]interface{}`. -/
abbrev Doc := List (String × Value)

/-- Run-time panics the package can raise. -/
inductive Panic where
  | indexOutOfRange
  | uncomparable
deriving DecidableEq, Repr

/-- Result of a Go call with signature `(bool, error)`. -/
inductive Outcome where
  | panic (p : Panic)
  | ret (matched : Bool) (err : Option String)
deriving DecidableEq, Repr

/-- Smallest value of the 64-bit Go `int`. -/
def minInt : Int := -(2 ^ 63)

/-- Largest value of the 64-bit Go `int`. -/
def maxInt : Int := 2 ^ 63 - 1

namespace F64

/-- Truncation toward zero of a finite float `m * 2 ^ e`. -/
def trunc (m e : Int) : Int :=
  if 0 ≤ e then m * 2 ^ e.toNat else Int.tdiv m (2 ^ (-e).toNat)

/-- Go conversion `int(f)`.  For a finite `f` whose truncation fits the 64-bit `int` it is the
truncation toward zero; otherwise Go leaves the result implementation-dependent and amd64
produces the smallest `int`. -/
def toInt : F64 → Int
  | fin m e => if minInt ≤ trunc m e ∧ trunc m e ≤ maxInt then trunc m e else minInt
  | _ => minInt

/-- Go conversion `float64(i)`: exact below `2 ^ 53`, otherwise rounded to the nearest
53-bit mantissa, ties to even. -/
def ofInt (i : Int) : F64 :=
  let n := i.natAbs
  if n < 2 ^ 53 then fin i 0
  else
    let k := Nat.log2 n - 52
    let q := n / 2 ^ k
    let r := n % 2 ^ k
    let half := 2 ^ (k - 1)
    let q1 := if half < r ∨ (r = half ∧ q % 2 = 1) then q + 1 else q
    fin (if i < 0 then -(q1 : Int) else (q1 : Int)) (k : Int)

/-- Mantissa of `m * 2 ^ e` rescaled to the exponent `k ≤ e`. -/
def scale (m e k : Int) : Int := m * 2 ^ (e - k).toNat

/-- IEEE `a < b`. -/
def lt : F64 → F64 → Bool
  | nan, _ => false
  | _, nan => false
  | inf na, inf nb => na && !nb
  | inf na, fin _ _ => na
  | fin _ _, inf nb => !nb
  | fin m1 e1, fin m2 e2 => decide (scale m1 e1 (min e1 e2) < scale m2 e2 (min e1 e2))

/-- IEEE `a == b`. -/
def eq : F64 → F64 → Bool
  | nan, _ => false
  | _, nan => false
  | inf na, inf nb => na == nb
  | inf _, fin _ _ => false
  | fin _ _, inf _ => false
  | fin m1 e1, fin m2 e2 => decide (scale m1 e1 (min e1 e2) = scale m2 e2 (min e1 e2))

/-- IEEE `a <= b`. -/
def le (a b : F64) : Bool := lt a b || eq a b

end F64

/-- Go `a == b` on two `interface{}` values: values of different dynamic types are unequal,
values of the same comparable type are compared, and two slices or two maps panic. -/
def ifaceEq : Value → Value → Except Panic Bool
  | .null, .null => .ok true
  | .bool a, .bool b => .ok (a == b)
  | .int a, .int b => .ok (a == b)
  | .float a, .float b => .ok (F64.eq a b)
  | .str a, .str b => .ok (a == b)
  | .list _, .list _ => .error .uncomparable
  | .map _, .map _ => .error .uncomparable
  | _, _ => .ok false

/-- Result of `reflect.TypeOf(v)` formatted with `%s`. -/
def typeName : Value → String
  | .null => "%!s(<nil>)"
  | .bool _ => "bool"
  | .int _ => "int"
  | .float _ => "float64"
  | .str _ => "string"
  | .list _ => "[]interface {}"
  | .map _ => "map[string]interface {}"

/-! ## comparators.go -/

abbrev comparatorType := Int

def COMPARATOR_NOT : comparatorType := 1
def COMPARATOR_IS : comparatorType := 2
def COMPARATOR_IN : comparatorType := 3
def COMPARATOR_GT : comparatorType := 4
def COMPARATOR_GTE : comparatorType := 5
def COMPARATOR_LT : comparatorType := 6
def COMPARATOR_LTE : comparatorType := 7

structure comparator where
  cType : comparatorType := 0
  negated : Bool := false
deriving DecidableEq, Repr

def comparatorIs (actual expected : Value) : Except Panic Bool :=
  match ifaceEq actual expected with
  | .error p => .error p
  | .ok eq => if !eq then .ok false else .ok true

/-- Loop `for _, e := range eCasted` of `comparatorIn`. -/
def comparatorInLoop (actual : Value) : List Value → Outcome
  | [] => .ret false none
  | e :: rest =>
    match ifaceEq e actual with
    | .error p => .panic p
    | .ok true => .ret true none
    | .ok false => comparatorInLoop actual rest

def comparatorIn (actual expected : Value) : Outcome :=
  match expected with
  | .list eCasted => comparatorInLoop actual eCasted
  | _ => .ret false (some "comparatorIn: unknown expected type")

/-- Values returned by `castArguments`. -/
structure CastResult where
  isInt : Bool := false
  aI : Int := 0
  eI : Int := 0
  aF : F64 := .fin 0 0
  eF : F64 := .fin 0 0
  err : Option String := none

def castArguments (actual expected : Value) : CastResult :=
  match expected with
  | .int expectedCasted =>
    match actual with
    | .int actualCastedToInt => { isInt := true, aI := actualCastedToInt, eI := expectedCasted }
    | .float actualCastedToFloat64 =>
      { isInt := true, aI := F64.toInt actualCastedToFloat64, eI := expectedCasted }
    | _ => { err := some "comparator: casting actual to Int failed." }
  | .float expectedCasted =>
    match actual with
    | .float actualCastedToFloat64 =>
      { isInt := false, aF := actualCastedToFloat64, eF := expectedCasted }
    | .int actualCastedToInt =>
      { isInt := false, aF := F64.ofInt actualCastedToInt, eF := expectedCasted }
    | _ => { err := some "comparator: casting actual to Float64 failed." }
  | _ => { err := some ("comparator: unknown type (type: " ++ typeName expected ++ ")") }

def comparatorGeneric (cType : comparatorType) (actual expected : Value) : Outcome :=
  let c := castArguments actual expected
  match c.err with
  | some err => .ret false (some err)
  | none =>
    if cType = COMPARATOR_GT ∧ c.isInt = true then .ret (decide (c.aI > c.eI)) none
    else if cType = COMPARATOR_GT ∧ c.isInt = false then .ret (F64.lt c.eF c.aF) none
    else if cType = COMPARATOR_GTE ∧ c.isInt = true then .ret (decide (c.aI ≥ c.eI)) none
    else if cType = COMPARATOR_GTE ∧ c.isInt = false then .ret (F64.le c.eF c.aF) none
    else if cType = COMPARATOR_LT ∧ c.isInt = true then .ret (decide (c.aI < c.eI)) none
    else if cType = COMPARATOR_LT ∧ c.isInt = false then .ret (F64.lt c.aF c.eF) none
    else if cType = COMPARATOR_LTE ∧ c.isInt = true then .ret (decide (c.aI ≤ c.eI)) none
    else if cType = COMPARATOR_LTE ∧ c.isInt = false then .ret (F64.le c.aF c.eF) none
    else .ret false (some "comparator: unknown comparator type")

/-- Tail `if err != nil { return false, err }; out = cmpResult != cmp.negated` of
`matchComparator`. -/
def applyNegation (negated : Bool) : Outcome → Outcome
  | .panic p => .panic p
  | .ret _ (some err) => .ret false (some err)
  | .ret cmpResult none => .ret (cmpResult != negated) none

/-- Comparator `comparatorNot` selects from the type of `expected`: IN for a list, IS
otherwise, not negated. -/
def comparatorNotSelect (expected : Value) : comparator :=
  match expected with
  | .list _ => { cType := COMPARATOR_IN, negated := false }
  | _ => { cType := COMPARATOR_IS, negated := false }

/-- Call `matchComparator(cmp, actual, expected)` made by `comparatorNot`: the body of
`matchComparator` on the IN and IS cases, the only ones `comparatorNotSelect` produces
(`matchComparatorIsIn_eq` shows it agrees with `matchComparator`). -/
def matchComparatorIsIn (actual expected : Value) : Outcome :=
  match expected with
  | .list _ => applyNegation false (comparatorIn actual expected)
  | _ =>
    match comparatorIs actual expected with
    | .error p => .panic p
    | .ok cmpResult => applyNegation false (.ret cmpResult none)

def comparatorNot (actual expected : Value) : Outcome :=
  match matchComparatorIsIn actual expected with
  | .panic p => .panic p
  | .ret _ (some err) => .ret false (some err)
  | .ret matched none => .ret (!matched) none

/-! ## gjsonquery.go -/

abbrev COLUMN_LEVEL_SEPARATOR : Char := '.'

def matchComparator (cmp : comparator) (valueInData expectation : Value) : Outcome :=
  let r : Outcome :=
    if cmp.cType = COMPARATOR_IN then comparatorIn valueInData expectation
    else if cmp.cType = COMPARATOR_IS then
      match comparatorIs valueInData expectation with
      | .error p => .panic p
      | .ok cmpResult => .ret cmpResult none
    else if cmp.cType = COMPARATOR_NOT then comparatorNot valueInData expectation
    else if cmp.cType = COMPARATOR_GT ∨ cmp.cType = COMPARATOR_GTE ∨ cmp.cType = COMPARATOR_LT
        ∨ cmp.cType = COMPARATOR_LTE then
      comparatorGeneric cmp.cType valueInData expectation
    else .ret false (some "matchComparator: unknown comparator")
  applyNegation cmp.negated r

/-- Go `strings.Split(s, COLUMN_LEVEL_SEPARATOR)` on the characters of `s`. -/
def splitPath : List Char → List (List Char)
  | [] => [[]]
  | c :: cs =>
    if c = COLUMN_LEVEL_SEPARATOR then [] :: splitPath cs
    else
      match splitPath cs with
      | [] => [[c]]
      | seg :: segs => (c :: seg) :: segs

/-- Loop of `fetchValue` over the remaining path elements. -/
def fetchLoop (data : Doc) : List (List Char) → Value × Bool
  | [] => (.null, false)
  | singlePathElement :: rest =>
    match data.lookup (String.mk singlePathElement) with
    | none => (.null, false)
    | some dataNext =>
      if rest.isEmpty then (dataNext, true)
      else
        match dataNext with
        | .map next => fetchLoop next rest
        | _ => (.null, false)

def fetchValue (data : Doc) (column : String) : Value × Bool :=
  fetchLoop data (splitPath column.data)

/-- Loop `for i, chr := range comparatorName` of `detectComparator`, on the characters not yet
visited: returns the final `negate` and `comparatorNameFiltered`. -/
def detectLoop : List Char → Bool → List Char → Bool × List Char
  | [], negate, comparatorNameFiltered => (negate, comparatorNameFiltered)
  | chr :: rest, negate, comparatorNameFiltered =>
    if chr = '!' then detectLoop rest (!negate) rest
    else detectLoop rest negate comparatorNameFiltered

def detectComparator (comparatorName : String) : comparator :=
  let r := detectLoop comparatorName.data false comparatorName.data
  let negate := r.1
  let comparatorNameFiltered := String.mk r.2
  if comparatorNameFiltered = "$not" then { cType := COMPARATOR_NOT, negated := negate }
  else if comparatorNameFiltered = "$is" then { cType := COMPARATOR_IS, negated := negate }
  else if comparatorNameFiltered = "$in" then { cType := COMPARATOR_IN, negated := negate }
  else if comparatorNameFiltered = "$gt" then { cType := COMPARATOR_GT, negated := negate }
  else if comparatorNameFiltered = "$gte" then { cType := COMPARATOR_GTE, negated := negate }
  else if comparatorNameFiltered = "$lt" then { cType := COMPARATOR_LT, negated := negate }
  else if comparatorNameFiltered = "$lte" then { cType := COMPARATOR_LTE, negated := negate }
  else {}

/-- Tail `if err != nil { return false, err }; return !matched, nil` shared by the `!` prefix
and the `$not` key of `matchValue`. -/
def invert : Outcome → Outcome
  | .panic p => .panic p
  | .ret _ (some err) => .ret false (some err)
  | .ret matched none => .ret (!matched) none

/-- Comparator and expectation `matchValue` settles on for a plain field, or the error it
returns: the type switch on `expectation` followed by the unpacking of a comparator object. -/
def resolveExpectation (expectation : Value) : Except String (comparator × Value) :=
  let cmp : comparator :=
    match expectation with
    | .str _ | .int _ | .float _ => { cType := COMPARATOR_IS, negated := false }
    | .list _ => { cType := COMPARATOR_IN, negated := false }
    | _ => {}
  if cmp.cType = 0 then
    match expectation with
    | .map expectationAsMap =>
      if expectationAsMap.length > 1 then .error "matchValue: multiple expectations"
      else
        match expectationAsMap with
        | (expKey, expValue) :: _ => .ok (detectComparator expKey, expValue)
        | [] => .ok (cmp, expectation)
    | _ => .error "matchValue: not a map"
  else .ok (cmp, expectation)

set_option linter.unusedVariables false in
mutual

def matcherAnd (query : Value) (data : Doc) : Outcome :=
  match query with
  | .map v => matcherAndMap v data
  | .list v => matcherAndList v data
  | _ => .ret false (some "matcherAnd: unknown query type")
termination_by (sizeOf query, 0)

/-- Loop of `matcherAnd` over the keys of a map query, in visiting order. -/
def matcherAndMap (v : List (String × Value)) (data : Doc) : Outcome :=
  match v with
  | [] => .ret true none
  | (column, expectedValue) :: rest =>
    match matchValue column expectedValue data with
    | .panic p => .panic p
    | .ret _ (some err) => .ret false (some err)
    | .ret false none => .ret false none
    | .ret true none => matcherAndMap rest data
termination_by (sizeOf v, 0)

/-- Loop of `matcherAnd` over the elements of a list query. -/
def matcherAndList (v : List Value) (data : Doc) : Outcome :=
  match v with
  | [] => .ret true none
  | expectedValue :: rest =>
    match matcherAnd expectedValue data with
    | .panic p => .panic p
    | .ret _ (some err) => .ret false (some err)
    | .ret false none => .ret false none
    | .ret true none => matcherAndList rest data
termination_by (sizeOf v, 0)

def matcherOr (query : Value) (data : Doc) : Outcome :=
  match query with
  | .map v => matcherOrMap v data
  | .list v => matcherOrList v data
  | _ => .ret false (some "matcherAnd: unknown query type")
termination_by (sizeOf query, 0)

/-- Loop of `matcherOr` over the keys of a map query, in visiting order. -/
def matcherOrMap (v : List (String × Value)) (data : Doc) : Outcome :=
  match v with
  | [] => .ret false none
  | (column, expectedValue) :: rest =>
    match matchValue column expectedValue data with
    | .panic p => .panic p
    | .ret _ (some err) => .ret false (some err)
    | .ret true none => .ret true none
    | .ret false none => matcherOrMap rest data
termination_by (sizeOf v, 0)

/-- Loop of `matcherOr` over the elements of a list query. -/
def matcherOrList (v : List Value) (data : Doc) : Outcome :=
  match v with
  | [] => .ret false none
  | expectedValue :: rest =>
    match matcherAnd expectedValue data with
    | .panic p => .panic p
    | .ret _ (some err) => .ret false (some err)
    | .ret true none => .ret true none
    | .ret false none => matcherOrList rest data
termination_by (sizeOf v, 0)

def matchValue (column : String) (expectation : Value) (data : Doc) : Outcome :=
  match h : column.data with
  | [] => .panic .indexOutOfRange
  | c :: rest =>
    if c = '!' then invert (matchValue (String.mk rest) expectation data)
    else if column = "$and" then matcherAnd expectation data
    else if column = "$or" then matcherOr expectation data
    else if column = "$not" then invert (matcherAnd expectation data)
    else if c = '$' then matchComparator (detectComparator column) (.map data) expectation
    else
      match resolveExpectation expectation with
      | .error err => .ret false (some err)
      | .ok (cmp, expectation1) => matchComparator cmp (fetchValue data column).1 expectation1
termination_by (sizeOf expectation, column.length + 1)
decreasing_by
  all_goals simp_wf
  all_goals exact Prod.Lex.right _ (by simp [String.length, h])

end

def DoesMatch (query : Value) (data : Doc) : Outcome :=
  matcherAnd query data

/-! ## Predicates used in the statements -/

/-- A key naming a document field: non-empty and starting with neither `!` nor `$`. -/
def isPlainKey (k : String) : Bool :=
  match k.data with
  | [] => false
  | c :: _ => c != '!' && c != '$'

/-- Scalars whose Go comparison is plain equality: null, bool, int and string. -/
def isScalar : Value → Bool
  | .null | .bool _ | .int _ | .str _ => true
  | _ => false

/-- Values of a numeric kind: Int or Float. -/
def isNumeric : Value → Bool
  | .int _ | .float _ => true
  | _ => false

/-- The four ordering comparators GT, GTE, LT and LTE. -/
def isOrdering (t : comparatorType) : Bool :=
  t == COMPARATOR_GT || t == COMPARATOR_GTE || t == COMPARATOR_LT || t == COMPARATOR_LTE

/-- The reserved keywords: the three combinator keys and the seven comparator tokens. -/
def reservedKeywords : List String :=
  ["$and", "$or", "$not", "$is", "$in", "$gt", "$gte", "$lt", "$lte"]

/-- A `$`-prefixed token without `!` that is none of the reserved keywords. -/
def isUnknownToken (t : String) : Bool :=
  t.data.head? == some '$' && !(t.data.contains '!') && !(reservedKeywords.contains t)

/-- The query made of `n` nested `{"$and": ...}` wrappers around the empty Map. -/
def nestAnd : Nat → Value
  | 0 => .map []
  | n + 1 => .map [("$and", nestAnd n)]

/-- Values Go cannot compare with `==`: Lists and Maps. -/
def isContainer : Value → Bool
  | .list _ | .map _ => true
  | _ => false

/-- What the loops of `matcherAnd` and `matcherOr` return when the result `r` of one iteration
ends the loop: a panic propagates, an error is returned with `false`, a boolean is returned as
it is. -/
def loopReturn : Outcome → Outcome
  | .panic p => .panic p
  | .ret _ (some err) => .ret false (some err)
  | .ret matched none => .ret matched none

/-! ## Unfolding lemmas -/

theorem matcherAnd_map (v : List (String × Value)) (data : Doc) :
    matcherAnd (.map v) data = matcherAndMap v data := by
  rw [matcherAnd]

theorem matcherAnd_list (v : List Value) (data : Doc) :
    matcherAnd (.list v) data = matcherAndList v data := by
  rw [matcherAnd]

theorem matcherAndMap_nil (data : Doc) : matcherAndMap [] data = .ret true none := by
  rw [matcherAndMap]

theorem matcherAndMap_cons (column : String) (expectedValue : Value)
    (rest : List (String × Value)) (data : Doc) :
    matcherAndMap ((column, expectedValue) :: rest) data =
      match matchValue column expectedValue data with
      | .panic p => .panic p
      | .ret _ (some err) => .ret false (some err)
      | .ret false none => .ret false none
      | .ret true none => matcherAndMap rest data := by
  rw [matcherAndMap]

theorem matchValue_nil (column : String) (expectation : Value) (data : Doc)
    (h : column.data = []) : matchValue column expectation data = .panic .indexOutOfRange := by
  rw [matchValue]
  split
  · rfl
  · simp_all

theorem matchValue_cons (column : String) (c : Char) (rest : List Char) (expectation : Value)
    (data : Doc) (h : column.data = c :: rest) :
    matchValue column expectation data =
      if c = '!' then invert (matchValue (String.mk rest) expectation data)
      else if column = "$and" then matcherAnd expectation data
      else if column = "$or" then matcherOr expectation data
      else if column = "$not" then invert (matcherAnd expectation data)
      else if c = '$' then matchComparator (detectComparator column) (.map data) expectation
      else
        match resolveExpectation expectation with
        | .error err => .ret false (some err)
        | .ok (cmp, expectation1) =>
          matchComparator cmp (fetchValue data column).1 expectation1 := by
  rw [matchValue]
  split
  · simp_all
  · rename_i c1 rest1 h1
    have h2 := h.symm.trans h1
    cases h2
    rfl

theorem isPlainKey_data {k : String} (h : isPlainKey k = true) :
    ∃ c rest, k.data = c :: rest ∧ c ≠ '!' ∧ c ≠ '$' := by
  unfold isPlainKey at h
  split at h
  · simp at h
  · rename_i c rest hd
    exact ⟨c, rest, hd, by simpa using h⟩

/-- On a plain field key `matchValue` goes straight to the comparator resolution. -/
theorem matchValue_plain (k : String) (expectation : Value) (data : Doc)
    (h : isPlainKey k = true) :
    matchValue k expectation data =
      match resolveExpectation expectation with
      | .error err => .ret false (some err)
      | .ok (cmp, expectation1) => matchComparator cmp (fetchValue data k).1 expectation1 := by
  obtain ⟨c, rest, hd, h1, h2⟩ := isPlainKey_data h
  have e1 : k ≠ "$and" := by rintro rfl; simp at hd; exact h2 hd.1.symm
  have e2 : k ≠ "$or" := by rintro rfl; simp at hd; exact h2 hd.1.symm
  have e3 : k ≠ "$not" := by rintro rfl; simp at hd; exact h2 hd.1.symm
  rw [matchValue_cons k c rest expectation data hd]
  simp [h1, h2, e1, e2, e3]

/-! ## Path splitting -/

theorem splitPath_ne_nil (cs : List Char) : splitPath cs ≠ [] := by
  induction cs with
  | nil => simp [splitPath]
  | cons c cs ih =>
    unfold splitPath
    split
    · simp
    · split
      · simp
      · simp

theorem splitPath_no_dot (s : List Char) (h : '.' ∉ s) : splitPath s = [s] := by
  induction s with
  | nil => rfl
  | cons c cs ih =>
    have hc : c ≠ '.' := fun e => h (by simp [e])
    have hcs : '.' ∉ cs := fun e => h (by simp [e])
    simp [splitPath, hc, ih hcs]

theorem splitPath_append_dot (s rest : List Char) (h : '.' ∉ s) :
    splitPath (s ++ '.' :: rest) = s :: splitPath rest := by
  induction s with
  | nil => simp [splitPath]
  | cons c cs ih =>
    have hc : c ≠ '.' := fun e => h (by simp [e])
    have hcs : '.' ∉ cs := fun e => h (by simp [e])
    simp [splitPath, hc, ih hcs]

theorem fetchValue_no_dot (d : Doc) (s : String) (h : '.' ∉ s.data) :
    fetchValue d s =
      match d.lookup s with
      | some v => (v, true)
      | none => (.null, false) := by
  unfold fetchValue
  rw [splitPath_no_dot _ h]
  simp only [fetchLoop]
  cases d.lookup s <;> simp

/-! ## The comparator call of `comparatorNot` -/

theorem matchComparatorIsIn_eq (actual expected : Value) :
    matchComparatorIsIn actual expected =
      matchComparator (comparatorNotSelect expected) actual expected := by
  cases expected <;>
    simp [matchComparatorIsIn, comparatorNotSelect, matchComparator, COMPARATOR_IN,
      COMPARATOR_IS] <;>
    cases comparatorIs actual _ <;> rfl

/-! ## Go equality on scalars -/

theorem ifaceEq_scalar_eq (a : Value) (h : isScalar a = true) : ifaceEq a a = .ok true := by
  cases a <;> simp [isScalar] at h <;> simp [ifaceEq]

theorem ifaceEq_scalar_ne (e a : Value) (h : isScalar a = true) (hne : e ≠ a) :
    ifaceEq e a = .ok false := by
  cases a <;> simp [isScalar] at h <;> cases e <;> simp_all [ifaceEq]

theorem ifaceEq_scalar_ne_left (a e : Value) (h : isScalar a = true) (hne : a ≠ e) :
    ifaceEq a e = .ok false := by
  cases a <;> simp [isScalar] at h <;> cases e <;> simp_all [ifaceEq]

/-! ## Path resolution -/

theorem fetchLoop_not_found (segs : List (List Char)) :
    ∀ d : Doc, (fetchLoop d segs).2 = false → (fetchLoop d segs).1 = .null := by
  induction segs with
  | nil => intro d _; rfl
  | cons seg rest ih =>
    intro d
    simp only [fetchLoop]
    cases d.lookup (String.mk seg) with
    | none => intro _; rfl
    | some dataNext =>
      by_cases hr : rest.isEmpty = true
      · simp [hr]
      · simp only [hr]
        cases dataNext <;> simp
        exact ih _

theorem fetchValue_dot (d : Doc) (s rest : String) (h : '.' ∉ s.data) :
    fetchValue d (s ++ "." ++ rest) =
      match d.lookup s with
      | some (.map m) => fetchValue m rest
      | _ => (.null, false) := by
  have hne := splitPath_ne_nil rest.data
  have hdata : (s ++ "." ++ rest).data = s.data ++ '.' :: rest.data := by
    simp [String.data_append]
  unfold fetchValue
  rw [hdata, splitPath_append_dot _ _ h]
  simp only [fetchLoop]
  cases hl : d.lookup s with
  | none => simp
  | some v =>
    have hemp : (splitPath rest.data).isEmpty = false := by
      cases hsp : splitPath rest.data with
      | nil => exact absurd hsp hne
      | cons a b => rfl
    cases v <;> simp [hemp]

/-! ## The negation prefix -/

theorem matchValue_bang (s : List Char) (expectation : Value) (data : Doc) :
    matchValue (String.mk ('!' :: s)) expectation data =
      invert (matchValue (String.mk s) expectation data) := by
  rw [matchValue_cons (String.mk ('!' :: s)) '!' s expectation data rfl]
  simp

theorem matchValue_replicate_bang (n : Nat) (s : List Char) (expectation : Value) (data : Doc) :
    matchValue (String.mk (List.replicate n '!' ++ s)) expectation data =
      invert^[n] (matchValue (String.mk s) expectation data) := by
  induction n with
  | zero => simp
  | succ n ih =>
    rw [List.replicate_succ, List.cons_append, matchValue_bang, ih,
      Function.iterate_succ_apply']

theorem invert_iterate_panic (n : Nat) (p : Panic) : invert^[n] (.panic p) = .panic p := by
  induction n with
  | zero => rfl
  | succ n ih => rw [Function.iterate_succ_apply', ih]; rfl

theorem invert_iterate_err (n : Nat) (b : Bool) (err : String) :
    invert^[n] (.ret b (some err)) = .ret (if n = 0 then b else false) (some err) := by
  induction n with
  | zero => rfl
  | succ n ih => rw [Function.iterate_succ_apply', ih]; rfl

theorem invert_iterate_ok (n : Nat) (b : Bool) :
    invert^[n] (.ret b none) = .ret (if n % 2 = 1 then !b else b) none := by
  induction n with
  | zero => rfl
  | succ n ih =>
    rw [Function.iterate_succ_apply', ih]
    rcases Nat.mod_two_eq_zero_or_one n with h | h
    · have h1 : (n + 1) % 2 = 1 := by omega
      simp [h, h1, invert]
    · have h1 : (n + 1) % 2 = 0 := by omega
      simp [h, h1, invert]

/-! ## The loops of the matchers -/

theorem matcherAnd_scalar (query : Value) (data : Doc) (h : isContainer query = false) :
    matcherAnd query data = .ret false (some "matcherAnd: unknown query type") := by
  cases query <;> simp [isContainer] at h <;> rw [matcherAnd] <;> simp

theorem matcherOr_map (v : List (String × Value)) (data : Doc) :
    matcherOr (.map v) data = matcherOrMap v data := by
  rw [matcherOr]

theorem matcherOr_list (v : List Value) (data : Doc) :
    matcherOr (.list v) data = matcherOrList v data := by
  rw [matcherOr]

theorem matcherOr_scalar (query : Value) (data : Doc) (h : isContainer query = false) :
    matcherOr query data = .ret false (some "matcherAnd: unknown query type") := by
  cases query <;> simp [isContainer] at h <;> rw [matcherOr] <;> simp

theorem matcherAndList_nil (data : Doc) : matcherAndList [] data = .ret true none := by
  rw [matcherAndList]

theorem matcherOrMap_nil (data : Doc) : matcherOrMap [] data = .ret false none := by
  rw [matcherOrMap]

theorem matcherOrList_nil (data : Doc) : matcherOrList [] data = .ret false none := by
  rw [matcherOrList]

theorem loopReturn_idem (r : Outcome) : loopReturn (loopReturn r) = loopReturn r := by
  rcases r with p | ⟨b, _ | err⟩ <;> rfl

/-- One iteration of the Map loop of `matcherAnd`: a key evaluating to `(true, nil)` lets the
loop go on, any other result ends it. -/
theorem matcherAndMap_step (kv : String × Value) (rest : List (String × Value)) (data : Doc) :
    matcherAndMap (kv :: rest) data =
      if matchValue kv.1 kv.2 data = .ret true none then matcherAndMap rest data
      else loopReturn (matchValue kv.1 kv.2 data) := by
  obtain ⟨column, expectedValue⟩ := kv
  rw [matcherAndMap]
  rcases matchValue column expectedValue data with p | ⟨b, _ | err⟩
  · simp [loopReturn]
  · cases b <;> simp [loopReturn]
  · cases b <;> simp [loopReturn]

/-- One iteration of the List loop of `matcherAnd`. -/
theorem matcherAndList_step (expectedValue : Value) (rest : List Value) (data : Doc) :
    matcherAndList (expectedValue :: rest) data =
      if matcherAnd expectedValue data = .ret true none then matcherAndList rest data
      else loopReturn (matcherAnd expectedValue data) := by
  rw [matcherAndList]
  rcases matcherAnd expectedValue data with p | ⟨b, _ | err⟩
  · simp [loopReturn]
  · cases b <;> simp [loopReturn]
  · cases b <;> simp [loopReturn]

/-- One iteration of the Map loop of `matcherOr`: a key evaluating to `(false, nil)` lets the
loop go on, any other result ends it. -/
theorem matcherOrMap_step (kv : String × Value) (rest : List (String × Value)) (data : Doc) :
    matcherOrMap (kv :: rest) data =
      if matchValue kv.1 kv.2 data = .ret false none then matcherOrMap rest data
      else loopReturn (matchValue kv.1 kv.2 data) := by
  obtain ⟨column, expectedValue⟩ := kv
  rw [matcherOrMap]
  rcases matchValue column expectedValue data with p | ⟨b, _ | err⟩
  · simp [loopReturn]
  · cases b <;> simp [loopReturn]
  · cases b <;> simp [loopReturn]

/-- One iteration of the List loop of `matcherOr`. -/
theorem matcherOrList_step (expectedValue : Value) (rest : List Value) (data : Doc) :
    matcherOrList (expectedValue :: rest) data =
      if matcherAnd expectedValue data = .ret false none then matcherOrList rest data
      else loopReturn (matcherAnd expectedValue data) := by
  rw [matcherOrList]
  rcases matcherAnd expectedValue data with p | ⟨b, _ | err⟩
  · simp [loopReturn]
  · cases b <;> simp [loopReturn]
  · cases b <;> simp [loopReturn]

/-- A loop that goes on while `f x = go` and otherwise returns `loopReturn (f x)` (the shape
shared by the four loops of the matchers) returns `go` when every element lets it go on. -/
theorem loop_all {α : Type} (f : α → Outcome) (go : Outcome) (loop : List α → Outcome)
    (hnil : loop [] = go)
    (hstep : ∀ x rest, loop (x :: rest) = if f x = go then loop rest else loopReturn (f x))
    (l : List α) (h : ∀ x ∈ l, f x = go) : loop l = go := by
  induction l with
  | nil => exact hnil
  | cons x rest ih =>
    rw [hstep, if_pos (h x (by simp))]
    exact ih (fun y hy => h y (by simp [hy]))

/-- Such a loop returns the result of the first element that ends it. -/
theorem loop_first {α : Type} (f : α → Outcome) (go : Outcome) (loop : List α → Outcome)
    (hstep : ∀ x rest, loop (x :: rest) = if f x = go then loop rest else loopReturn (f x))
    (pre : List α) (x : α) (post : List α) (hpre : ∀ y ∈ pre, f y = go) (hx : f x ≠ go) :
    loop (pre ++ x :: post) = loopReturn (f x) := by
  induction pre with
  | nil => rw [List.nil_append, hstep, if_neg hx]
  | cons y rest ih =>
    rw [List.cons_append, hstep, if_pos (hpre y (by simp))]
    exact ih (fun z hz => hpre z (by simp [hz]))

theorem loop_stop {α : Type} (f : α → Outcome) (go : Outcome) (loop : List α → Outcome)
    (hstep : ∀ x rest, loop (x :: rest) = if f x = go then loop rest else loopReturn (f x))
    (l : List α) (h : ∃ x ∈ l, f x ≠ go) :
    ∃ x ∈ l, f x ≠ go ∧ loop l = loopReturn (f x) := by
  induction l with
  | nil => simp at h
  | cons x rest ih =>
    by_cases hx : f x = go
    · have h1 : ∃ y ∈ rest, f y ≠ go := by
        obtain ⟨y, hy, hne⟩ := h
        rcases List.mem_cons.1 hy with rfl | hy1
        · exact absurd hx hne
        · exact ⟨y, hy1, hne⟩
      obtain ⟨y, hy, hne, hl⟩ := ih h1
      exact ⟨y, by simp [hy], hne, by rw [hstep, if_pos hx, hl]⟩
    · exact ⟨x, by simp, hx, by rw [hstep, if_neg hx]⟩

/-- The result of such a loop does not depend on the order of the list when all the
elements that end it evaluate to the same result. -/
theorem loop_perm {α : Type} (f : α → Outcome) (go : Outcome) (loop : List α → Outcome)
    (hnil : loop [] = go)
    (hstep : ∀ x rest, loop (x :: rest) = if f x = go then loop rest else loopReturn (f x))
    (l l1 : List α) (hp : l.Perm l1)
    (hsame : ∀ x ∈ l, ∀ y ∈ l, f x ≠ go → f y ≠ go → f x = f y) :
    loop l = loop l1 := by
  by_cases hall : ∀ x ∈ l, f x = go
  · rw [loop_all f go loop hnil hstep l hall,
      loop_all f go loop hnil hstep l1 (fun x hx => hall x (hp.mem_iff.2 hx))]
  · have hex : ∃ x ∈ l, f x ≠ go := by
      by_contra hcon
      exact hall (fun x hx => by_contra (fun hne => hcon ⟨x, hx, hne⟩))
    have hex1 : ∃ x ∈ l1, f x ≠ go := by
      obtain ⟨x, hx, hne⟩ := hex
      exact ⟨x, hp.mem_iff.1 hx, hne⟩
    obtain ⟨x, hx, hne, hl⟩ := loop_stop f go loop hstep l hex
    obtain ⟨y, hy, hney, hl1⟩ := loop_stop f go loop hstep l1 hex1
    rw [hl, hl1, hsame x hx y (hp.mem_iff.2 hy) hne hney]

theorem loopReturn_matcherAndMap (v : List (String × Value)) (data : Doc) :
    loopReturn (matcherAndMap v data) = matcherAndMap v data := by
  induction v with
  | nil => rw [matcherAndMap_nil]; rfl
  | cons kv rest ih =>
    rw [matcherAndMap_step]
    split
    · exact ih
    · exact loopReturn_idem _

theorem loopReturn_matcherAndList (v : List Value) (data : Doc) :
    loopReturn (matcherAndList v data) = matcherAndList v data := by
  induction v with
  | nil => rw [matcherAndList_nil]; rfl
  | cons x rest ih =>
    rw [matcherAndList_step]
    split
    · exact ih
    · exact loopReturn_idem _

/-- `matcherAnd` never returns an error together with `true`, so a loop returning its result
returns it unchanged. -/
theorem loopReturn_matcherAnd (query : Value) (data : Doc) :
    loopReturn (matcherAnd query data) = matcherAnd query data := by
  cases query with
  | map v => rw [matcherAnd_map]; exact loopReturn_matcherAndMap v data
  | list v => rw [matcherAnd_list]; exact loopReturn_matcherAndList v data
  | null => rw [matcherAnd_scalar .null data rfl]; rfl
  | bool b => rw [matcherAnd_scalar (.bool b) data rfl]; rfl
  | int i => rw [matcherAnd_scalar (.int i) data rfl]; rfl
  | float f => rw [matcherAnd_scalar (.float f) data rfl]; rfl
  | str s => rw [matcherAnd_scalar (.str s) data rfl]; rfl

/-! ## The combinator keys -/

theorem matchValue_and (expectation : Value) (data : Doc) :
    matchValue "$and" expectation data = matcherAnd expectation data := by
  rw [matchValue_cons "$and" '$' ['a', 'n', 'd'] expectation data rfl]
  simp

theorem matchValue_or (expectation : Value) (data : Doc) :
    matchValue "$or" expectation data = matcherOr expectation data := by
  rw [matchValue_cons "$or" '$' ['o', 'r'] expectation data rfl]
  simp

theorem matchValue_not (expectation : Value) (data : Doc) :
    matchValue "$not" expectation data = invert (matcherAnd expectation data) := by
  rw [matchValue_cons "$not" '$' ['n', 'o', 't'] expectation data rfl]
  simp

/-- A query Map with a single key returns what the loop returns for that key. -/
theorem matcherAnd_single (column : String) (expectedValue : Value) (data : Doc) :
    matcherAnd (.map [(column, expectedValue)]) data =
      loopReturn (matchValue column expectedValue data) := by
  rw [matcherAnd_map, matcherAndMap_step, matcherAndMap_nil]
  split
  · rename_i h; rw [h]; rfl
  · rfl

theorem matcherOr_single (column : String) (expectedValue : Value) (data : Doc) :
    matcherOr (.map [(column, expectedValue)]) data =
      loopReturn (matchValue column expectedValue data) := by
  rw [matcherOr_map, matcherOrMap_step, matcherOrMap_nil]
  split
  · rename_i h; rw [h]; rfl
  · rfl

theorem matcherAnd_singleton_list (query : Value) (data : Doc) :
    matcherAnd (.list [query]) data = matcherAnd query data := by
  rw [matcherAnd_list, matcherAndList_step, matcherAndList_nil]
  split
  · rename_i h; rw [h]
  · exact loopReturn_matcherAnd query data

theorem matcherOr_singleton_list (query : Value) (data : Doc) :
    matcherOr (.list [query]) data = matcherAnd query data := by
  rw [matcherOr_list, matcherOrList_step, matcherOrList_nil]
  split
  · rename_i h; rw [h]
  · exact loopReturn_matcherAnd query data

/-! ## Comparator objects -/

theorem resolveExpectation_single (expKey : String) (expValue : Value) :
    resolveExpectation (.map [(expKey, expValue)]) = .ok (detectComparator expKey, expValue) := by
  simp [resolveExpectation]

/-- A comparator object with one key on a plain field applies the comparator of that key to
the value of the field. -/
theorem matchValue_object (k expKey : String) (expValue : Value) (D : Doc)
    (hk : isPlainKey k = true) :
    matchValue k (.map [(expKey, expValue)]) D =
      matchComparator (detectComparator expKey) (fetchValue D k).1 expValue := by
  rw [matchValue_plain k _ D hk, resolveExpectation_single]

theorem matchComparator_unset (negated : Bool) (valueInData expectation : Value) :
    matchComparator { cType := 0, negated := negated } valueInData expectation =
      .ret false (some "matchComparator: unknown comparator") := by
  simp [matchComparator, applyNegation, COMPARATOR_IN, COMPARATOR_IS, COMPARATOR_NOT,
    COMPARATOR_GT, COMPARATOR_GTE, COMPARATOR_LT, COMPARATOR_LTE]

theorem matchComparator_not_list (negated : Bool) (a : Value) (L : List Value) :
    matchComparator { cType := COMPARATOR_NOT, negated := negated } a (.list L) =
      matchComparator { cType := COMPARATOR_IN, negated := !negated } a (.list L) := by
  simp only [matchComparator, comparatorNot, matchComparatorIsIn, COMPARATOR_NOT,
    COMPARATOR_IN, COMPARATOR_IS]
  simp only [show ((1 : Int) = 3) = False from by decide, show ((1 : Int) = 2) = False from by
    decide, if_false, if_true]
  rcases comparatorIn a (.list L) with p | ⟨b, _ | err⟩ <;>
    cases negated <;> simp [applyNegation]

theorem matchComparator_not_other (negated : Bool) (a x : Value) (hx : ∀ L, x ≠ .list L) :
    matchComparator { cType := COMPARATOR_NOT, negated := negated } a x =
      matchComparator { cType := COMPARATOR_IS, negated := !negated } a x := by
  have hsel : matchComparatorIsIn a x =
      match comparatorIs a x with
      | .error p => .panic p
      | .ok cmpResult => applyNegation false (.ret cmpResult none) := by
    cases x <;> first | rfl | exact absurd rfl (hx _)
  simp only [matchComparator, comparatorNot, hsel, COMPARATOR_NOT, COMPARATOR_IN,
    COMPARATOR_IS]
  simp only [show ((1 : Int) = 3) = False from by decide, show ((1 : Int) = 2) = False from by
    decide, show ((2 : Int) = 3) = False from by decide, if_false, if_true]
  rcases comparatorIs a x with p | b <;> cases negated <;> simp [applyNegation]

theorem ifaceEq_ok_right (e a : Value) (h : isContainer a = false) :
    ∃ b, ifaceEq e a = .ok b := by
  cases a <;> simp [isContainer] at h <;> cases e <;> simp [ifaceEq]

theorem ifaceEq_ok_left (a e : Value) (h : isContainer a = false) :
    ∃ b, ifaceEq a e = .ok b := by
  cases a <;> simp [isContainer] at h <;> cases e <;> simp [ifaceEq]

theorem comparatorInLoop_ok (a : Value) (h : isContainer a = false) (L : List Value) :
    ∃ b, comparatorInLoop a L = .ret b none := by
  induction L with
  | nil => exact ⟨false, rfl⟩
  | cons e rest ih =>
    obtain ⟨b, hb⟩ := ifaceEq_ok_right e a h
    cases b
    · simpa [comparatorInLoop, hb] using ih
    · exact ⟨true, by simp [comparatorInLoop, hb]⟩

/-- An error of the single key of a query Map is the result of the query, also under `$not`,
under `$or` and inside a List. -/
theorem error_through_wrappers (key : String) (exp : Value) (D : Doc) (b : Bool)
    (err : String) (h : matchValue key exp D = .ret b (some err)) :
    DoesMatch (.map [(key, exp)]) D = .ret false (some err) ∧
    DoesMatch (.map [("$not", .map [(key, exp)])]) D = .ret false (some err) ∧
    DoesMatch (.map [("$or", .map [(key, exp)])]) D = .ret false (some err) ∧
    DoesMatch (.list [.map [(key, exp)]]) D = .ret false (some err) ∧
    DoesMatch (.map [("$or", .list [.map [(key, exp)]])]) D = .ret false (some err) := by
  have h1 : matcherAnd (.map [(key, exp)]) D = .ret false (some err) := by
    rw [matcherAnd_single, h]; rfl
  have h2 : matcherOr (.map [(key, exp)]) D = .ret false (some err) := by
    rw [matcherOr_single, h]; rfl
  refine ⟨h1, ?_, ?_, ?_, ?_⟩
  · rw [DoesMatch, matcherAnd_single, matchValue_not, h1]; rfl
  · rw [DoesMatch, matcherAnd_single, matchValue_or, h2]; rfl
  · rw [DoesMatch, matcherAnd_singleton_list, h1]
  · rw [DoesMatch, matcherAnd_single, matchValue_or, matcherOr_singleton_list, h1]; rfl

/-! ## Tokens that are no comparator -/

theorem detectLoop_no_bang (cs : List Char) (negate : Bool) (filtered : List Char)
    (h : '!' ∉ cs) : detectLoop cs negate filtered = (negate, filtered) := by
  induction cs with
  | nil => rfl
  | cons c rest ih =>
    have hc : c ≠ '!' := fun e => h (by simp [e])
    have hrest : '!' ∉ rest := fun e => h (by simp [e])
    simp [detectLoop, hc, ih hrest]

theorem isUnknownToken_data {t : String} (h : isUnknownToken t = true) :
    (∃ rest, t.data = '$' :: rest) ∧ '!' ∉ t.data ∧
      t ≠ "$and" ∧ t ≠ "$or" ∧ t ≠ "$not" ∧ t ≠ "$is" ∧ t ≠ "$in" ∧ t ≠ "$gt" ∧
      t ≠ "$gte" ∧ t ≠ "$lt" ∧ t ≠ "$lte" := by
  simp only [isUnknownToken, reservedKeywords, Bool.and_eq_true, Bool.not_eq_true', beq_iff_eq,
    List.contains_eq_any_beq, List.any_eq_false, List.any_cons, List.any_nil, Bool.or_false,
    Bool.or_eq_false_iff, beq_eq_false_iff_ne, ne_eq] at h
  obtain ⟨⟨hhead, hbang⟩, h1, h2, h3, h4, h5, h6, h7, h8, h9⟩ := h
  refine ⟨?_, ?_, ?_⟩
  · cases hd : t.data with
    | nil => rw [hd] at hhead; simp at hhead
    | cons c rest =>
      rw [hd] at hhead
      simp only [List.head?_cons, Option.some.injEq] at hhead
      exact ⟨rest, by rw [hhead]⟩
  · intro hmem
    exact hbang '!' hmem rfl
  · exact ⟨h1, h2, h3, h4, h5, h6, h7, h8, h9⟩

theorem detectComparator_unknownToken (t : String) (h : isUnknownToken t = true) :
    detectComparator t = { cType := 0, negated := false } := by
  obtain ⟨_, hbang, _, _, h3, h4, h5, h6, h7, h8, h9⟩ := isUnknownToken_data h
  simp only [detectComparator, detectLoop_no_bang t.data false t.data hbang]
  rw [show String.mk t.data = t from rfl]
  simp [h3, h4, h5, h6, h7, h8, h9]

theorem matchValue_unknownToken (t : String) (e : Value) (D : Doc)
    (h : isUnknownToken t = true) :
    matchValue t e D = .ret false (some "matchComparator: unknown comparator") := by
  obtain ⟨⟨rest, hd⟩, _, h1, h2, h3, _⟩ := isUnknownToken_data h
  rw [matchValue_cons t '$' rest e D hd]
  simp [h1, h2, h3, detectComparator_unknownToken t h, matchComparator_unset]

/-! ## Negated comparator tokens -/

theorem detectLoop_replicate_bang (n : Nat) (s : List Char) (h : '!' ∉ s) :
    ∀ (negate : Bool) (filtered : List Char),
      detectLoop (List.replicate n '!' ++ s) negate filtered =
        (if n % 2 = 1 then !negate else negate, if n = 0 then filtered else s) := by
  induction n with
  | zero =>
    intro negate filtered
    simp [detectLoop_no_bang s negate filtered h]
  | succ n ih =>
    intro negate filtered
    rw [List.replicate_succ, List.cons_append]
    simp only [detectLoop, if_true]
    rw [ih]
    rcases Nat.mod_two_eq_zero_or_one n with hn | hn
    · have h1 : (n + 1) % 2 = 1 := by omega
      by_cases h0 : n = 0 <;> simp [hn, h1, h0]
    · have h1 : (n + 1) % 2 = 0 := by omega
      have h0 : n ≠ 0 := by omega
      simp [hn, h1, h0]

/-- The loop of the token parser on `n` characters `!` followed by a token `K` without `!`:
the flag is the parity of `n` and the name left to match against the keywords is `K`. -/
theorem detectLoop_token (n : Nat) (K : String) (h : '!' ∉ K.data) :
    detectLoop (List.replicate n '!' ++ K.data) false (List.replicate n '!' ++ K.data) =
      (decide (n % 2 = 1), K.data) := by
  rw [detectLoop_replicate_bang n K.data h]
  by_cases h0 : n = 0
  · subst h0; simp
  · by_cases hp : n % 2 = 1 <;> simp [h0, hp]

/-- The token parser on `n` characters `!` followed by a token `K` without `!` matches `K`
against the keywords, with the parity of `n` as the flag. -/
theorem detectComparator_token (n : Nat) (K : String) (h : '!' ∉ K.data) :
    detectComparator (String.mk (List.replicate n '!' ++ K.data)) =
      if K = "$not" then { cType := COMPARATOR_NOT, negated := decide (n % 2 = 1) }
      else if K = "$is" then { cType := COMPARATOR_IS, negated := decide (n % 2 = 1) }
      else if K = "$in" then { cType := COMPARATOR_IN, negated := decide (n % 2 = 1) }
      else if K = "$gt" then { cType := COMPARATOR_GT, negated := decide (n % 2 = 1) }
      else if K = "$gte" then { cType := COMPARATOR_GTE, negated := decide (n % 2 = 1) }
      else if K = "$lt" then { cType := COMPARATOR_LT, negated := decide (n % 2 = 1) }
      else if K = "$lte" then { cType := COMPARATOR_LTE, negated := decide (n % 2 = 1) }
      else {} := by
  simp only [detectComparator, detectLoop_token n K h]

/-! ## Errors come with `false` -/

theorem loopReturn_matcherOrMap (v : List (String × Value)) (data : Doc) :
    loopReturn (matcherOrMap v data) = matcherOrMap v data := by
  induction v with
  | nil => rw [matcherOrMap_nil]; rfl
  | cons kv rest ih =>
    rw [matcherOrMap_step]
    split
    · exact ih
    · exact loopReturn_idem _

theorem loopReturn_matcherOrList (v : List Value) (data : Doc) :
    loopReturn (matcherOrList v data) = matcherOrList v data := by
  induction v with
  | nil => rw [matcherOrList_nil]; rfl
  | cons x rest ih =>
    rw [matcherOrList_step]
    split
    · exact ih
    · exact loopReturn_idem _

theorem loopReturn_matcherOr (query : Value) (data : Doc) :
    loopReturn (matcherOr query data) = matcherOr query data := by
  cases query with
  | map v => rw [matcherOr_map]; exact loopReturn_matcherOrMap v data
  | list v => rw [matcherOr_list]; exact loopReturn_matcherOrList v data
  | null => rw [matcherOr_scalar .null data rfl]; rfl
  | bool b => rw [matcherOr_scalar (.bool b) data rfl]; rfl
  | int i => rw [matcherOr_scalar (.int i) data rfl]; rfl
  | float f => rw [matcherOr_scalar (.float f) data rfl]; rfl
  | str s => rw [matcherOr_scalar (.str s) data rfl]; rfl

/-- A result left unchanged by `loopReturn` carries no error with `true`. -/
theorem err_false_of_loopReturn {r : Outcome} (h : loopReturn r = r) (b : Bool)
    (err : String) (hr : r = .ret b (some err)) : b = false := by
  subst hr
  simp only [loopReturn, Outcome.ret.injEq, and_true] at h
  exact h.symm

theorem invert_err_false (r : Outcome) (b : Bool) (err : String)
    (h : invert r = .ret b (some err)) : b = false := by
  rcases r with p | ⟨b1, _ | e1⟩ <;> simp [invert] at h
  exact h.1

theorem applyNegation_err_false (negated : Bool) (r : Outcome) (b : Bool) (err : String)
    (h : applyNegation negated r = .ret b (some err)) : b = false := by
  rcases r with p | ⟨b1, _ | e1⟩ <;> simp [applyNegation] at h
  exact h.1

theorem matchComparator_err_false (cmp : comparator) (a e : Value) (b : Bool) (err : String)
    (h : matchComparator cmp a e = .ret b (some err)) : b = false := by
  unfold matchComparator at h
  exact applyNegation_err_false _ _ b err h

theorem comparatorInLoop_no_err (a : Value) (L : List Value) (b : Bool) (err : String) :
    comparatorInLoop a L ≠ .ret b (some err) := by
  induction L with
  | nil => simp [comparatorInLoop]
  | cons e rest ih =>
    simp only [comparatorInLoop]
    rcases ifaceEq e a with p | b1
    · simp
    · cases b1
      · exact ih
      · simp

theorem comparatorIn_err_false (a e : Value) (b : Bool) (err : String)
    (h : comparatorIn a e = .ret b (some err)) : b = false := by
  cases e with
  | list L => exact absurd h (comparatorInLoop_no_err a L b err)
  | _ => simp [comparatorIn] at h; exact h.1

theorem comparatorNot_eq (a e : Value) :
    comparatorNot a e = invert (matchComparator (comparatorNotSelect e) a e) := by
  rw [← matchComparatorIsIn_eq]
  unfold comparatorNot
  rcases matchComparatorIsIn a e with p | ⟨b, _ | err⟩ <;> rfl

theorem comparatorNot_err_false (a e : Value) (b : Bool) (err : String)
    (h : comparatorNot a e = .ret b (some err)) : b = false := by
  rw [comparatorNot_eq] at h
  exact invert_err_false _ b err h

theorem comparatorGeneric_err_false (t : comparatorType) (a e : Value) (b : Bool)
    (err : String) (h : comparatorGeneric t a e = .ret b (some err)) : b = false := by
  simp only [comparatorGeneric] at h
  split at h
  · simp at h; exact h.1
  · split_ifs at h <;> simp at h
    exact h.1

theorem matchValue_err_false (column : String) (expectation : Value) (data : Doc) (b : Bool)
    (err : String) (h : matchValue column expectation data = .ret b (some err)) :
    b = false := by
  cases hd : column.data with
  | nil => rw [matchValue_nil column expectation data hd] at h; simp at h
  | cons c rest =>
    rw [matchValue_cons column c rest expectation data hd] at h
    split_ifs at h
    · exact invert_err_false _ b err h
    · exact err_false_of_loopReturn (loopReturn_matcherAnd _ _) b err h
    · exact err_false_of_loopReturn (loopReturn_matcherOr _ _) b err h
    · exact invert_err_false _ b err h
    · exact matchComparator_err_false _ _ _ b err h
    · split at h
      · simp at h; exact h.1
      · exact matchComparator_err_false _ _ _ b err h

/-! ## Termination measures -/

theorem sizeOf_lt_of_mem_map (kvs : List (String × Value)) (k : String) (v : Value)
    (h : (k, v) ∈ kvs) : sizeOf v < sizeOf (Value.map kvs) := by
  have h1 := List.sizeOf_lt_of_mem h
  simp only [Value.map.sizeOf_spec, Prod.mk.sizeOf_spec] at h1 ⊢
  omega

theorem sizeOf_lt_of_mem_list (xs : List Value) (x : Value) (h : x ∈ xs) :
    sizeOf x < sizeOf (Value.list xs) := by
  have h1 := List.sizeOf_lt_of_mem h
  simp only [Value.list.sizeOf_spec]
  omega

theorem splitPath_length (cs : List Char) :
    (splitPath cs).length = cs.count '.' + 1 := by
  induction cs with
  | nil => rfl
  | cons c rest ih =>
    by_cases hc : c = '.'
    · subst hc
      simp [splitPath, ih]
    · have hne := splitPath_ne_nil rest
      cases hsp : splitPath rest with
      | nil => exact absurd hsp hne
      | cons seg segs =>
        rw [hsp] at ih
        have hcount : (c :: rest).count '.' = rest.count '.' := by
          simp [List.count_cons, hc]
        simp only [splitPath, COLUMN_LEVEL_SEPARATOR, hc, if_false, hsp, hcount]
        simpa using ih

theorem doesMatch_nestAnd (n : Nat) (D : Doc) : DoesMatch (nestAnd n) D = .ret true none := by
  induction n with
  | zero => rw [nestAnd, DoesMatch, matcherAnd_map, matcherAndMap_nil]
  | succ n ih =>
    rw [DoesMatch] at ih
    rw [nestAnd, DoesMatch, matcherAnd_single, matchValue_and, ih]
    rfl

/-! ## Claims -/

/-- C1: for every document `D`, `DoesMatch` applied to the empty Map query and `D` returns
`(true, nil)`. -/
theorem doesMatch_empty_map (D : Doc) : DoesMatch (.map []) D = .ret true none := by
  simp [DoesMatch, matcherAnd_map, matcherAndMap_nil]

/-- C2: type-strict IS on scalars.  For a plain field name `k` without `.`, an expectation
`x` that is an Int or a String and any document value `y`, `DoesMatch({k: x}, {k: y})` returns
`(true, nil)` when `y` is the same value of the same kind as `x` and `(false, nil)` otherwise;
in particular an Int matches neither a Float, nor a String, nor a Map. -/
theorem doesMatch_is_strict (k : String) (x y : Value)
    (hk : isPlainKey k = true) (hdot : '.' ∉ k.data)
    (hx : (∃ i, x = .int i) ∨ (∃ s, x = .str s)) :
    (y = x → DoesMatch (.map [(k, x)]) [(k, y)] = .ret true none) ∧
    (y ≠ x → DoesMatch (.map [(k, x)]) [(k, y)] = .ret false none) ∧
    (∀ i f s m, x = .int i → (y = .float f ∨ y = .str s ∨ y = .map m) →
      DoesMatch (.map [(k, x)]) [(k, y)] = .ret false none) := by
  have hsc : isScalar x = true := by
    rcases hx with ⟨i, rfl⟩ | ⟨s, rfl⟩ <;> rfl
  have hres : resolveExpectation x = .ok ({ cType := COMPARATOR_IS, negated := false }, x) := by
    rcases hx with ⟨i, rfl⟩ | ⟨s, rfl⟩ <;> rfl
  have hfetch : (fetchValue [(k, y)] k).1 = y := by
    rw [fetchValue_no_dot _ _ hdot]; simp [List.lookup]
  have unfold_eq : DoesMatch (.map [(k, x)]) [(k, y)] =
      match matchComparator { cType := COMPARATOR_IS, negated := false } y x with
      | .panic p => .panic p
      | .ret _ (some err) => .ret false (some err)
      | .ret false none => .ret false none
      | .ret true none => .ret true none := by
    simp only [DoesMatch, matcherAnd_map, matcherAndMap_cons, matcherAndMap_nil,
      matchValue_plain k x _ hk, hres, hfetch]
  have hne : y ≠ x → DoesMatch (.map [(k, x)]) [(k, y)] = .ret false none := by
    intro h
    rw [unfold_eq]
    simp [matchComparator, comparatorIs, ifaceEq_scalar_ne y x hsc h, applyNegation,
      COMPARATOR_IN, COMPARATOR_IS]
  refine ⟨?_, hne, ?_⟩
  · rintro rfl
    rw [unfold_eq]
    simp [matchComparator, comparatorIs, ifaceEq_scalar_eq y hsc, applyNegation,
      COMPARATOR_IN, COMPARATOR_IS]
  · rintro i f s m rfl hy
    apply hne
    rcases hy with rfl | rfl | rfl <;> simp

/-- Witness for C2 at `{"a": 100}` against `{"a": "100"}`. -/
theorem doesMatch_is_strict_witness :
    (isPlainKey "a" = true ∧ '.' ∉ "a".data) ∧
    DoesMatch (.map [("a", .int 100)]) [("a", .str "100")] = .ret false none :=
  ⟨by decide,
    (doesMatch_is_strict "a" (.int 100) (.str "100") (by decide) (by decide)
      (Or.inl ⟨100, rfl⟩)).2.1 (by simp)⟩

/-- C3: `comparatorIn(actual, expected)` returns the error "unknown expected type" whenever
`expected` is not a List, whatever `actual` is; for a List `L` and a scalar `actual` (null,
bool, int or string) it returns `(true, nil)` exactly when some element of `L` is strictly
equal to `actual`, and `(false, nil)` otherwise. -/
theorem comparatorIn_spec (actual expected : Value) :
    ((∀ L, expected ≠ .list L) →
      comparatorIn actual expected = .ret false (some "comparatorIn: unknown expected type")) ∧
    (∀ L, expected = .list L → isScalar actual = true →
      (actual ∈ L → comparatorIn actual expected = .ret true none) ∧
      (actual ∉ L → comparatorIn actual expected = .ret false none)) := by
  constructor
  · intro h
    cases expected <;> simp [comparatorIn] at h ⊢
  · rintro L rfl hs
    simp only [comparatorIn]
    induction L with
    | nil => simp [comparatorInLoop]
    | cons e rest ih =>
      by_cases h : e = actual
      · subst h
        simp [comparatorInLoop, ifaceEq_scalar_eq e hs]
      · have h1 : actual ≠ e := fun h2 => h h2.symm
        simpa [comparatorInLoop, ifaceEq_scalar_ne e actual hs h, h1] using ih

/-- Witness for C3: 101 is a member of `[100, 101, 102]`. -/
theorem comparatorIn_spec_witness :
    (isScalar (.int 101) = true ∧ Value.int 101 ∈ [Value.int 100, .int 101, .int 102]) ∧
    comparatorIn (.int 101) (.list [.int 100, .int 101, .int 102]) = .ret true none :=
  ⟨⟨rfl, by simp⟩,
    ((comparatorIn_spec (.int 101) (.list [.int 100, .int 101, .int 102])).2
      [.int 100, .int 101, .int 102] rfl rfl).1 (by simp)⟩

/-- C4: for a plain field key `k`, a Map expectation with two or more keys and any document
`D`, `matchValue(k, expectation, D)` returns `(false, "matchValue: multiple expectations")`,
whatever the keys of the expectation and the content of `D`. -/
theorem matchValue_multiple_expectations (k : String) (m : List (String × Value)) (D : Doc)
    (hk : isPlainKey k = true) (hm : 2 ≤ m.length) :
    matchValue k (.map m) D = .ret false (some "matchValue: multiple expectations") := by
  rw [matchValue_plain k _ D hk]
  have h : m.length > 1 := hm
  simp [resolveExpectation, h]

/-- Witness for C4 at `{"$in": [101, 102], "$not": 201}` on the field `a`. -/
theorem matchValue_multiple_expectations_witness :
    isPlainKey "a" = true ∧
    matchValue "a" (.map [("$in", .list [.int 101, .int 102]), ("$not", .int 201)])
      [("a", .int 101)] = .ret false (some "matchValue: multiple expectations") :=
  ⟨by decide, matchValue_multiple_expectations "a" _ _ (by decide) (by decide)⟩

/-- C5: `fetchValue` satisfies the recursive path-resolution equations.  For a segment `s`
without `.`: `fetchValue(d, s)` is `(d[s], true)` when `s` is a key of `d` (also when the value
is null) and `(nil, false)` otherwise; `fetchValue(d, s + "." + rest)` is `fetchValue(m, rest)`
when `d[s]` is a Map `m` and `(nil, false)` otherwise.  A result with `found = false` always
carries the nil value. -/
theorem fetchValue_equations (d : Doc) (s rest : String) (hs : '.' ∉ s.data) :
    (fetchValue d s =
      match d.lookup s with
      | some v => (v, true)
      | none => (.null, false)) ∧
    (fetchValue d (s ++ "." ++ rest) =
      match d.lookup s with
      | some (.map m) => fetchValue m rest
      | _ => (.null, false)) ∧
    (∀ column, (fetchValue d column).2 = false → (fetchValue d column).1 = .null) :=
  ⟨fetchValue_no_dot d s hs, fetchValue_dot d s rest hs,
    fun _ h => fetchLoop_not_found _ d h⟩

/-- Witness for C5 at the segment `l1`: resolving `l1.l2` in `{"l1": {"l2": 101}}` continues
in the inner Map. -/
theorem fetchValue_equations_witness :
    '.' ∉ "l1".data ∧
    fetchValue [("l1", .map [("l2", .int 101)])] ("l1" ++ "." ++ "l2") = (.int 101, true) :=
  ⟨by decide,
    (fetchValue_equations [("l1", .map [("l2", .int 101)])] "l1" "l2" (by decide)).2.1.trans
      rfl⟩

/-- C6: the negation prefix is a parity.  For `n` characters `!` in front of a key `k`,
`matchValue` panics or errors exactly as it does on `k` (with the same error), and otherwise
returns the boolean of `matchValue(k, e, D)` inverted exactly when `n` is odd.  In particular
`DoesMatch({"!!$and": Q}, D)` equals `DoesMatch({"$and": Q}, D)`. -/
theorem matchValue_negation_parity (n : Nat) (k : String) (e : Value) (D : Doc) :
    (∀ p, matchValue k e D = .panic p →
      matchValue (String.mk (List.replicate n '!' ++ k.data)) e D = .panic p) ∧
    (∀ b err, matchValue k e D = .ret b (some err) →
      matchValue (String.mk (List.replicate n '!' ++ k.data)) e D =
        .ret (if n = 0 then b else false) (some err)) ∧
    (∀ b, matchValue k e D = .ret b none →
      matchValue (String.mk (List.replicate n '!' ++ k.data)) e D =
        .ret (if n % 2 = 1 then !b else b) none) ∧
    DoesMatch (.map [("!!$and", e)]) D = DoesMatch (.map [("$and", e)]) D := by
  have hk : String.mk k.data = k := rfl
  have hrep := matchValue_replicate_bang n k.data e D
  rw [hk] at hrep
  refine ⟨?_, ?_, ?_, ?_⟩
  · intro p h
    rw [hrep, h, invert_iterate_panic]
  · intro b err h
    rw [hrep, h, invert_iterate_err]
  · intro b h
    rw [hrep, h, invert_iterate_ok]
  · have h2 : matchValue "!!$and" e D = invert (invert (matchValue "$and" e D)) := by
      have := matchValue_replicate_bang 2 "$and".data e D
      simpa using this
    simp only [DoesMatch, matcherAnd_map, matcherAndMap_cons, matcherAndMap_nil, h2]
    rcases matchValue "$and" e D with p | ⟨b, _ | err⟩
    · rfl
    · cases b <;> rfl
    · cases b <;> rfl

/-- C7 (counterexample): with actual the Float `2 ^ 64` and expected the largest Int, the
truncation of actual toward zero is greater than expected, yet GT returns `(false, nil)`: the
conversion `int(f)` cannot represent the truncation, and no Int it could produce instead is
greater than the largest one. -/
theorem comparatorGeneric_float_overflow :
    comparatorGeneric COMPARATOR_GT (.float (.fin 1 64)) (.int maxInt) = .ret false none ∧
    comparatorGeneric COMPARATOR_GT (.float (.fin 1 64)) (.int maxInt) ≠
      .ret (decide (F64.trunc 1 64 > maxInt)) none := by
  decide

/-- C7 (as amended): the ordering comparators work in the Int domain when expected is an Int.
For an Int actual `a` they return, without error, `a > e`, `a >= e`, `a < e` and `a <= e`; for
a finite Float actual whose truncation toward zero fits the Int range the same holds with `a`
taken as that truncation. -/
theorem comparatorGeneric_int_domain (e a m x : Int)
    (hr : minInt ≤ F64.trunc m x ∧ F64.trunc m x ≤ maxInt) :
    (comparatorGeneric COMPARATOR_GT (.int a) (.int e) = .ret (decide (a > e)) none ∧
      comparatorGeneric COMPARATOR_GTE (.int a) (.int e) = .ret (decide (a ≥ e)) none ∧
      comparatorGeneric COMPARATOR_LT (.int a) (.int e) = .ret (decide (a < e)) none ∧
      comparatorGeneric COMPARATOR_LTE (.int a) (.int e) = .ret (decide (a ≤ e)) none) ∧
    (comparatorGeneric COMPARATOR_GT (.float (.fin m x)) (.int e) =
        .ret (decide (F64.trunc m x > e)) none ∧
      comparatorGeneric COMPARATOR_GTE (.float (.fin m x)) (.int e) =
        .ret (decide (F64.trunc m x ≥ e)) none ∧
      comparatorGeneric COMPARATOR_LT (.float (.fin m x)) (.int e) =
        .ret (decide (F64.trunc m x < e)) none ∧
      comparatorGeneric COMPARATOR_LTE (.float (.fin m x)) (.int e) =
        .ret (decide (F64.trunc m x ≤ e)) none) := by
  have ht : F64.toInt (.fin m x) = F64.trunc m x := by simp [F64.toInt, hr]
  refine ⟨⟨?_, ?_, ?_, ?_⟩, ?_, ?_, ?_, ?_⟩ <;>
    simp [comparatorGeneric, castArguments, ht, COMPARATOR_GT, COMPARATOR_GTE, COMPARATOR_LT,
      COMPARATOR_LTE]

/-- Witness for C7: the Float 105.9 (`7452050008414618 * 2 ^ (-46)`) truncates to 105, which is
not greater than 105. -/
theorem comparatorGeneric_int_domain_witness :
    (minInt ≤ F64.trunc 7452050008414618 (-46) ∧ F64.trunc 7452050008414618 (-46) ≤ maxInt) ∧
    comparatorGeneric COMPARATOR_GT (.float (.fin 7452050008414618 (-46))) (.int 105) =
      .ret false none :=
  ⟨by decide,
    (comparatorGeneric_int_domain 105 0 7452050008414618 (-46) (by decide)).2.1.trans
      (by decide)⟩

/-- C8: error conditions of the ordering comparators GT, GTE, LT, LTE.  An expected that is
neither Int nor Float gives the "unknown type" error whatever actual is; an Int expected with
an actual that is neither Int nor Float gives "casting actual to Int failed."; a Float expected
with such an actual gives "casting actual to Float64 failed."; in every remaining case no
error is returned. -/
theorem comparatorGeneric_errors (t : comparatorType) (actual expected : Value)
    (ht : isOrdering t = true) :
    (isNumeric expected = false →
      comparatorGeneric t actual expected =
        .ret false (some ("comparator: unknown type (type: " ++ typeName expected ++ ")"))) ∧
    (∀ i, expected = .int i → isNumeric actual = false →
      comparatorGeneric t actual expected =
        .ret false (some "comparator: casting actual to Int failed.")) ∧
    (∀ f, expected = .float f → isNumeric actual = false →
      comparatorGeneric t actual expected =
        .ret false (some "comparator: casting actual to Float64 failed.")) ∧
    (isNumeric expected = true → isNumeric actual = true →
      ∃ b, comparatorGeneric t actual expected = .ret b none) := by
  refine ⟨?_, ?_, ?_, ?_⟩
  · intro h
    cases expected <;> simp [isNumeric] at h <;> simp [comparatorGeneric, castArguments]
  · rintro i rfl h
    cases actual <;> simp [isNumeric] at h <;> simp [comparatorGeneric, castArguments]
  · rintro f rfl h
    cases actual <;> simp [isNumeric] at h <;> simp [comparatorGeneric, castArguments]
  · intro he ha
    have ht1 : ((t = 4 ∨ t = 5) ∨ t = 6) ∨ t = 7 := by
      simpa [isOrdering, COMPARATOR_GT, COMPARATOR_GTE, COMPARATOR_LT, COMPARATOR_LTE] using ht
    cases expected <;> simp [isNumeric] at he <;> cases actual <;> simp [isNumeric] at ha <;>
      rcases ht1 with ((rfl | rfl) | rfl) | rfl <;>
      simp [comparatorGeneric, castArguments, COMPARATOR_GT, COMPARATOR_GTE, COMPARATOR_LT,
        COMPARATOR_LTE]

/-- Witness for C8: `$lt` with the String expected "105" on the Int actual 101. -/
theorem comparatorGeneric_errors_witness :
    isOrdering COMPARATOR_LT = true ∧
    comparatorGeneric COMPARATOR_LT (.int 101) (.str "105") =
      .ret false (some "comparator: unknown type (type: string)") :=
  ⟨by decide,
    ((comparatorGeneric_errors COMPARATOR_LT (.int 101) (.str "105") (by decide)).1 rfl).trans
      (by decide)⟩

/-- C9: negation wraps the comparator result without touching errors.  For every comparator
kind `t`, actual `a` and expected `e`: a panic or an error of the non-negated application is
returned unchanged (the error with `false`) by the negated one, and a boolean result is
returned inverted. -/
theorem matchComparator_negation (t : comparatorType) (a e : Value) :
    (∀ p, matchComparator { cType := t, negated := false } a e = .panic p →
      matchComparator { cType := t, negated := true } a e = .panic p) ∧
    (∀ b err, matchComparator { cType := t, negated := false } a e = .ret b (some err) →
      matchComparator { cType := t, negated := true } a e = .ret false (some err)) ∧
    (∀ b, matchComparator { cType := t, negated := false } a e = .ret b none →
      matchComparator { cType := t, negated := true } a e = .ret (!b) none) := by
  simp only [matchComparator]
  generalize (if t = COMPARATOR_IN then comparatorIn a e
    else if t = COMPARATOR_IS then
      match comparatorIs a e with
      | .error p => Outcome.panic p
      | .ok cmpResult => Outcome.ret cmpResult none
    else if t = COMPARATOR_NOT then comparatorNot a e
    else if t = COMPARATOR_GT ∨ t = COMPARATOR_GTE ∨ t = COMPARATOR_LT ∨ t = COMPARATOR_LTE then
      comparatorGeneric t a e
    else Outcome.ret false (some "matchComparator: unknown comparator")) = r
  rcases r with p | ⟨b, _ | err⟩ <;> simp [applyNegation]

/-- C10 (failing inputs): `DoesMatch` panics on a Map query with the empty key or the key `!`
(index out of range on `column[0]`), and on an IS comparison of two Lists (comparison of
uncomparable values). -/
theorem doesMatch_panics :
    DoesMatch (.map [("", .int 1)]) [] = .panic .indexOutOfRange ∧
    DoesMatch (.map [("!", .int 1)]) [] = .panic .indexOutOfRange ∧
    DoesMatch (.map [("a", .map [("$is", .list [])])]) [("a", .list [])] =
      .panic .uncomparable := by
  refine ⟨?_, ?_, ?_⟩
  · simp [DoesMatch, matcherAnd_map, matcherAndMap_cons, matchValue_nil]
  · have h : matchValue "!" (.int 1) [] = invert (matchValue "" (.int 1) []) :=
      matchValue_bang [] _ _
    simp [DoesMatch, matcherAnd_map, matcherAndMap_cons, h, matchValue_nil, invert]
  · have h : matchValue "a" (.map [("$is", .list [])]) [("a", .list [])] =
        .panic .uncomparable := by
      rw [matchValue_plain _ _ _ (by decide)]
      decide
    simp [DoesMatch, matcherAnd_map, matcherAndMap_cons, h]

/-- C11 (counterexample): the same Map query gives different results for different visiting
orders when one key errors and another one ends the loop without error.  With the field `a`
not matching and the key `$x` an unknown comparator, `matcherAnd` returns `(false, nil)` or the
error; with `a` matching, `matcherOr` returns `(true, nil)` or the error. -/
theorem matcher_map_order_dependent :
    List.Perm [("a", Value.int 1), ("$x", Value.int 1)] [("$x", .int 1), ("a", .int 1)] ∧
    matcherAnd (.map [("a", .int 1), ("$x", .int 1)]) [("a", .int 2)] = .ret false none ∧
    matcherAnd (.map [("$x", .int 1), ("a", .int 1)]) [("a", .int 2)] =
      .ret false (some "matchComparator: unknown comparator") ∧
    matcherOr (.map [("a", .int 1), ("$x", .int 1)]) [("a", .int 1)] = .ret true none ∧
    matcherOr (.map [("$x", .int 1), ("a", .int 1)]) [("a", .int 1)] =
      .ret false (some "matchComparator: unknown comparator") := by
  have ha2 : matchValue "a" (.int 1) [("a", .int 2)] = .ret false none := by
    rw [matchValue_plain _ _ _ (by decide)]; decide
  have ha1 : matchValue "a" (.int 1) [("a", .int 1)] = .ret true none := by
    rw [matchValue_plain _ _ _ (by decide)]; decide
  have hx : ∀ D : Doc, matchValue "$x" (.int 1) D =
      .ret false (some "matchComparator: unknown comparator") := by
    intro D
    rw [matchValue_cons "$x" '$' ['x'] _ _ rfl]
    simp [show detectComparator "$x" = {} from by decide, matchComparator, applyNegation,
      COMPARATOR_IN, COMPARATOR_IS, COMPARATOR_NOT, COMPARATOR_GT, COMPARATOR_GTE,
      COMPARATOR_LT, COMPARATOR_LTE]
  refine ⟨List.Perm.swap _ _ _, ?_, ?_, ?_, ?_⟩
  · simp [matcherAnd_map, matcherAndMap_step, ha2, loopReturn]
  · simp [matcherAnd_map, matcherAndMap_step, hx, loopReturn]
  · simp [matcherOr_map, matcherOrMap_step, ha1, loopReturn]
  · simp [matcherOr_map, matcherOrMap_step, hx, loopReturn]

/-- C11 (as amended): for a Map query and a document, the results of `matcherAnd` and of
`matcherOr` are the same for every visiting order of the keys provided all the keys that end
the loop (for `matcherAnd` the keys not evaluating to `(true, nil)`, for `matcherOr` the keys
not evaluating to `(false, nil)`) evaluate to the same result; in particular when every key
evaluates to a boolean without error. -/
theorem matcher_map_order (v v1 : List (String × Value)) (D : Doc) (hp : v.Perm v1) :
    ((∀ x ∈ v, ∀ y ∈ v, matchValue x.1 x.2 D ≠ .ret true none →
        matchValue y.1 y.2 D ≠ .ret true none → matchValue x.1 x.2 D = matchValue y.1 y.2 D) →
      matcherAnd (.map v) D = matcherAnd (.map v1) D) ∧
    ((∀ x ∈ v, ∀ y ∈ v, matchValue x.1 x.2 D ≠ .ret false none →
        matchValue y.1 y.2 D ≠ .ret false none → matchValue x.1 x.2 D = matchValue y.1 y.2 D) →
      matcherOr (.map v) D = matcherOr (.map v1) D) ∧
    ((∀ x ∈ v, ∃ b, matchValue x.1 x.2 D = .ret b none) →
      matcherAnd (.map v) D = matcherAnd (.map v1) D ∧
      matcherOr (.map v) D = matcherOr (.map v1) D) := by
  have hand := loop_perm (fun x : String × Value => matchValue x.1 x.2 D) (.ret true none)
    (fun l => matcherAndMap l D) (matcherAndMap_nil D)
    (fun x rest => matcherAndMap_step x rest D) v v1 hp
  have hor := loop_perm (fun x : String × Value => matchValue x.1 x.2 D) (.ret false none)
    (fun l => matcherOrMap l D) (matcherOrMap_nil D)
    (fun x rest => matcherOrMap_step x rest D) v v1 hp
  beta_reduce at hand hor
  simp only [matcherAnd_map, matcherOr_map]
  refine ⟨hand, hor, fun hb => ⟨hand ?_, hor ?_⟩⟩
  · intro x hx y hy hnx hny
    obtain ⟨bx, hbx⟩ := hb x hx
    obtain ⟨by1, hby⟩ := hb y hy
    rw [hbx] at hnx ⊢
    rw [hby] at hny ⊢
    cases bx <;> cases by1 <;> first | rfl | exact absurd rfl hnx | exact absurd rfl hny
  · intro x hx y hy hnx hny
    obtain ⟨bx, hbx⟩ := hb x hx
    obtain ⟨by1, hby⟩ := hb y hy
    rw [hbx] at hnx ⊢
    rw [hby] at hny ⊢
    cases bx <;> cases by1 <;> first | rfl | exact absurd rfl hnx | exact absurd rfl hny

/-- Witness for C11: the two visiting orders of `{"a": 1, "b": 2}` against `{"a": 1}`, where
`a` matches and `b` does not. -/
theorem matcher_map_order_witness :
    List.Perm [("a", Value.int 1), ("b", Value.int 2)] [("b", .int 2), ("a", .int 1)] ∧
    matcherAnd (.map [("a", .int 1), ("b", .int 2)]) [("a", .int 1)] =
      matcherAnd (.map [("b", .int 2), ("a", .int 1)]) [("a", .int 1)] ∧
    matcherOr (.map [("a", .int 1), ("b", .int 2)]) [("a", .int 1)] =
      matcherOr (.map [("b", .int 2), ("a", .int 1)]) [("a", .int 1)] :=
  ⟨List.Perm.swap _ _ _,
    (matcher_map_order [("a", .int 1), ("b", .int 2)] [("b", .int 2), ("a", .int 1)]
      [("a", .int 1)] (List.Perm.swap _ _ _)).2.2 (by
        intro x hx
        simp only [List.mem_cons, List.mem_singleton, List.not_mem_nil, or_false] at hx
        rcases hx with rfl | rfl
        · exact ⟨true, by rw [matchValue_plain _ _ _ (by decide)]; decide⟩
        · exact ⟨false, by rw [matchValue_plain _ _ _ (by decide)]; decide⟩)⟩

/-- C12: AND over a Map is the conjunction of its keys.  When every key of the Map `M`
evaluates to a boolean without error, `matcherAnd`, visiting the keys in any order `M1`,
returns `(true, nil)` if every key evaluates to `true` and `(false, nil)` otherwise. -/
theorem matcherAnd_map_conjunction (M M1 : List (String × Value)) (D : Doc)
    (hp : M.Perm M1) (hok : ∀ x ∈ M, ∃ b, matchValue x.1 x.2 D = .ret b none) :
    ((∀ x ∈ M, matchValue x.1 x.2 D = .ret true none) →
      matcherAnd (.map M1) D = .ret true none) ∧
    ((∃ x ∈ M, matchValue x.1 x.2 D ≠ .ret true none) →
      matcherAnd (.map M1) D = .ret false none) := by
  rw [matcherAnd_map]
  constructor
  · intro h
    exact loop_all (fun x : String × Value => matchValue x.1 x.2 D) (.ret true none)
      (fun l => matcherAndMap l D) (matcherAndMap_nil D)
      (fun x rest => matcherAndMap_step x rest D) M1 (fun x hx => h x (hp.mem_iff.2 hx))
  · intro h
    have h1 : ∃ x ∈ M1, matchValue x.1 x.2 D ≠ .ret true none := by
      obtain ⟨x, hx, hne⟩ := h
      exact ⟨x, hp.mem_iff.1 hx, hne⟩
    obtain ⟨x, hx, hne, hl⟩ := loop_stop (fun x : String × Value => matchValue x.1 x.2 D)
      (.ret true none) (fun l => matcherAndMap l D)
      (fun x rest => matcherAndMap_step x rest D) M1 h1
    obtain ⟨b, hb⟩ := hok x (hp.mem_iff.2 hx)
    rw [hl, hb]
    rw [hb] at hne
    cases b
    · rfl
    · exact absurd rfl hne

/-- Witness for C12: `{"a": 1, "b": 2}` against `{"a": 1}` visited with `b` first. -/
theorem matcherAnd_map_conjunction_witness :
    List.Perm [("a", Value.int 1), ("b", Value.int 2)] [("b", .int 2), ("a", .int 1)] ∧
    matcherAnd (.map [("b", .int 2), ("a", .int 1)]) [("a", .int 1)] = .ret false none :=
  ⟨List.Perm.swap _ _ _,
    (matcherAnd_map_conjunction [("a", .int 1), ("b", .int 2)] [("b", .int 2), ("a", .int 1)]
      [("a", .int 1)] (List.Perm.swap _ _ _) (by
        intro x hx
        simp only [List.mem_cons, List.mem_singleton, List.not_mem_nil, or_false] at hx
        rcases hx with rfl | rfl
        · exact ⟨true, by rw [matchValue_plain _ _ _ (by decide)]; decide⟩
        · exact ⟨false, by rw [matchValue_plain _ _ _ (by decide)]; decide⟩)).2
      ⟨("b", .int 2), by simp, by rw [matchValue_plain _ _ _ (by decide)]; decide⟩⟩

/-- C13: OR of nothing is false.  For every document `D`, `DoesMatch({"$or": {}}, D)` and
`DoesMatch({"$or": []}, D)` both return `(false, nil)`. -/
theorem doesMatch_or_empty (D : Doc) :
    DoesMatch (.map [("$or", .map [])]) D = .ret false none ∧
    DoesMatch (.map [("$or", .list [])]) D = .ret false none := by
  constructor
  · rw [DoesMatch, matcherAnd_single, matchValue_or, matcherOr_map, matcherOrMap_nil]; rfl
  · rw [DoesMatch, matcherAnd_single, matchValue_or, matcherOr_list, matcherOrList_nil]; rfl

/-- C14: AND over a List short-circuits in list order.  `matcherAnd(L, D)` is `(true, nil)`
when every element AND-evaluates to `(true, nil)` (the empty List included); otherwise it is
the result of the first element whose AND-evaluation is not `(true, nil)`, whatever the
elements after it are. -/
theorem matcherAnd_list_first (L : List Value) (D : Doc) :
    ((∀ x ∈ L, matcherAnd x D = .ret true none) → matcherAnd (.list L) D = .ret true none) ∧
    (∀ pre x post, L = pre ++ x :: post → (∀ y ∈ pre, matcherAnd y D = .ret true none) →
      matcherAnd x D ≠ .ret true none →
      matcherAnd (.list L) D = matcherAnd x D ∧
      ∀ post1, matcherAnd (.list (pre ++ x :: post1)) D = matcherAnd (.list L) D) := by
  constructor
  · intro h
    rw [matcherAnd_list]
    exact loop_all (fun x => matcherAnd x D) (.ret true none) (fun l => matcherAndList l D)
      (matcherAndList_nil D) (fun x rest => matcherAndList_step x rest D) L h
  · rintro pre x post rfl hpre hx
    have key : ∀ post1, matcherAnd (.list (pre ++ x :: post1)) D = matcherAnd x D := by
      intro post1
      rw [matcherAnd_list]
      have h := loop_first (fun x => matcherAnd x D) (.ret true none)
        (fun l => matcherAndList l D) (fun x rest => matcherAndList_step x rest D)
        pre x post1 hpre hx
      beta_reduce at h
      rw [h, loopReturn_matcherAnd]
    exact ⟨key post, fun post1 => by rw [key post1, key post]⟩

/-- Witness for C14: in `[{}, 5, "x"]` the first element matches, the second is not a query
and the third is never looked at. -/
theorem matcherAnd_list_first_witness :
    matcherAnd (.list [.map [], .int 5, .str "x"]) [] =
      .ret false (some "matcherAnd: unknown query type") :=
  (((matcherAnd_list_first [.map [], .int 5, .str "x"] []).2 [.map []] (.int 5) [.str "x"] rfl
    (by
      intro y hy
      simp only [List.mem_singleton] at hy
      rw [hy, matcherAnd_map, matcherAndMap_nil])
    (by rw [matcherAnd_scalar (.int 5) [] rfl]; decide)).1).trans
    (matcherAnd_scalar (.int 5) [] rfl)

/-- C15: OR over a List evaluates AND on each element.  `matcherOr(L, D)` is `(true, nil)` if
an element AND-matches and every earlier element evaluates to `(false, nil)`; it is the error
of the first element that errors if every earlier element evaluates to `(false, nil)`; it is
`(false, nil)` if every element evaluates to `(false, nil)`.  In particular
`matcherOr([Q], D) = matcherAnd(Q, D)`. -/
theorem matcherOr_list_spec (L : List Value) (D : Doc) :
    (∀ pre x post, L = pre ++ x :: post → (∀ y ∈ pre, matcherAnd y D = .ret false none) →
      matcherAnd x D = .ret true none → matcherOr (.list L) D = .ret true none) ∧
    (∀ pre x post b err, L = pre ++ x :: post →
      (∀ y ∈ pre, matcherAnd y D = .ret false none) →
      matcherAnd x D = .ret b (some err) → matcherOr (.list L) D = .ret false (some err)) ∧
    ((∀ x ∈ L, matcherAnd x D = .ret false none) → matcherOr (.list L) D = .ret false none) ∧
    (∀ Q, matcherOr (.list [Q]) D = matcherAnd Q D) := by
  have first : ∀ pre x post, (∀ y ∈ pre, matcherAnd y D = .ret false none) →
      matcherAnd x D ≠ .ret false none →
      matcherOr (.list (pre ++ x :: post)) D = matcherAnd x D := by
    intro pre x post hpre hx
    rw [matcherOr_list]
    have h := loop_first (fun x => matcherAnd x D) (.ret false none)
      (fun l => matcherOrList l D) (fun x rest => matcherOrList_step x rest D)
      pre x post hpre hx
    beta_reduce at h
    rw [h, loopReturn_matcherAnd]
  refine ⟨?_, ?_, ?_, fun Q => matcherOr_singleton_list Q D⟩
  · rintro pre x post rfl hpre hx
    rw [first pre x post hpre (by rw [hx]; decide), hx]
  · rintro pre x post b err rfl hpre hx
    rw [first pre x post hpre (by rw [hx]; simp)]
    have h := loopReturn_matcherAnd x D
    rw [hx] at h ⊢
    exact h.symm
  · intro h
    rw [matcherOr_list]
    exact loop_all (fun x => matcherAnd x D) (.ret false none) (fun l => matcherOrList l D)
      (matcherOrList_nil D) (fun x rest => matcherOrList_step x rest D) L h

/-- Witness for C15: in `[{"a": 1}, {}, 5]` against `{"a": 2}` the first element does not match
and the second one does. -/
theorem matcherOr_list_spec_witness :
    matcherOr (.list [.map [("a", .int 1)], .map [], .int 5]) [("a", .int 2)] =
      .ret true none :=
  (matcherOr_list_spec [.map [("a", .int 1)], .map [], .int 5] [("a", .int 2)]).1
    [.map [("a", .int 1)]] (.map []) [.int 5] rfl
    (by
      intro y hy
      simp only [List.mem_singleton] at hy
      rw [hy, matcherAnd_single, matchValue_plain _ _ _ (by decide)]
      decide)
    (by rw [matcherAnd_map, matcherAndMap_nil])

/-- C16: the `$not` key is negated AND.  `matchValue("$not", Q, D)` returns `(not b, nil)` when
`matcherAnd(Q, D)` returns `(b, nil)` and `matcherAnd`'s error with `false` when it errors;
hence it equals `matchValue("!$and", Q, D)`. -/
theorem matchValue_not_spec (Q : Value) (D : Doc) :
    (∀ b, matcherAnd Q D = .ret b none → matchValue "$not" Q D = .ret (!b) none) ∧
    (∀ b err, matcherAnd Q D = .ret b (some err) →
      matchValue "$not" Q D = .ret false (some err)) ∧
    matchValue "$not" Q D = matchValue "!$and" Q D := by
  have hbang : matchValue "!$and" Q D = invert (matcherAnd Q D) := by
    have h := matchValue_bang "$and".data Q D
    rw [show String.mk "$and".data = "$and" from rfl, matchValue_and] at h
    exact h
  refine ⟨?_, ?_, ?_⟩
  · intro b h
    rw [matchValue_not, h]; rfl
  · intro b err h
    rw [matchValue_not, h]; rfl
  · rw [matchValue_not, hbang]

/-- C17: the NOT comparator is the inverse of the comparator implied by the shape of
`expected`.  For an actual `a` that is neither a List nor a Map, `comparatorNot(a, e)` is,
without error, the negation of `comparatorIn(a, e)` when `e` is a List and of
`comparatorIs(a, e)` otherwise.  Consequently, on a plain field key `k`, `{k: {"$not": L}}`
gives the same result as `{k: {"!$in": L}}` for a List `L`, and for `x` not a List
`{k: {"$not": x}}` the same as `{k: {"!$is": x}}` and `{k: {"!$not": x}}` the same as
`{k: {"$is": x}}`. -/
theorem comparatorNot_spec (a e : Value) (k : String) (D : Doc)
    (ha : isContainer a = false) (hk : isPlainKey k = true) :
    (∀ L, e = .list L →
      ∃ b, comparatorIn a e = .ret b none ∧ comparatorNot a e = .ret (!b) none) ∧
    ((∀ L, e ≠ .list L) →
      ∃ b, comparatorIs a e = .ok b ∧ comparatorNot a e = .ret (!b) none) ∧
    (∀ L, matchValue k (.map [("$not", .list L)]) D =
      matchValue k (.map [("!$in", .list L)]) D) ∧
    (∀ x, (∀ L, x ≠ .list L) →
      matchValue k (.map [("$not", x)]) D = matchValue k (.map [("!$is", x)]) D ∧
      matchValue k (.map [("!$not", x)]) D = matchValue k (.map [("$is", x)]) D) := by
  have dnot : detectComparator "$not" = { cType := COMPARATOR_NOT, negated := false } := by
    decide
  have dnnot : detectComparator "!$not" = { cType := COMPARATOR_NOT, negated := true } := by
    decide
  have dnin : detectComparator "!$in" = { cType := COMPARATOR_IN, negated := true } := by
    decide
  have dis : detectComparator "$is" = { cType := COMPARATOR_IS, negated := false } := by
    decide
  have dnis : detectComparator "!$is" = { cType := COMPARATOR_IS, negated := true } := by
    decide
  refine ⟨?_, ?_, ?_, ?_⟩
  · rintro L rfl
    obtain ⟨b, hb⟩ := comparatorInLoop_ok a ha L
    refine ⟨b, hb, ?_⟩
    have hb1 : comparatorIn a (.list L) = .ret b none := hb
    simp [comparatorNot, matchComparatorIsIn, hb1, applyNegation]
  · intro he
    obtain ⟨b, hb⟩ := ifaceEq_ok_left a e ha
    have hb1 : comparatorIs a e = .ok b := by
      simp only [comparatorIs, hb]; cases b <;> rfl
    refine ⟨b, hb1, ?_⟩
    have hsel : matchComparatorIsIn a e = .ret b none := by
      cases e <;> first
        | exact absurd rfl (he _)
        | (simp only [matchComparatorIsIn, hb1, applyNegation]; cases b <;> rfl)
    simp [comparatorNot, hsel]
  · intro L
    rw [matchValue_object k _ _ D hk, matchValue_object k _ _ D hk, dnot, dnin,
      matchComparator_not_list]
    rfl
  · intro x hx
    rw [matchValue_object k _ _ D hk, matchValue_object k _ _ D hk,
      matchValue_object k _ _ D hk, matchValue_object k _ _ D hk, dnot, dnis, dnnot, dis,
      matchComparator_not_other _ _ _ hx, matchComparator_not_other _ _ _ hx]
    exact ⟨rfl, rfl⟩

/-- Witness for C17: 200 is not in `[100, 101, 102]`, so NOT returns `(true, nil)`. -/
theorem comparatorNot_spec_witness :
    (isContainer (.int 200) = false ∧ isPlainKey "a" = true) ∧
    ∃ b, comparatorIn (.int 200) (.list [.int 100, .int 101, .int 102]) = .ret b none ∧
      comparatorNot (.int 200) (.list [.int 100, .int 101, .int 102]) = .ret (!b) none :=
  ⟨by decide,
    (comparatorNot_spec (.int 200) (.list [.int 100, .int 101, .int 102]) "a" [] rfl
      (by decide)).1 [.int 100, .int 101, .int 102] rfl⟩

/-- C18: implicit comparators equal their explicit forms.  On a plain field key `k`,
`matchValue(k, x, D)` equals `matchValue(k, {"$is": x}, D)` when `x` is a String, an Int or a
Float, and `matchValue(k, L, D)` equals `matchValue(k, {"$in": L}, D)` when `L` is a List. -/
theorem implicit_comparator_explicit (k : String) (D : Doc) (hk : isPlainKey k = true) :
    (∀ x, ((∃ s, x = .str s) ∨ (∃ i, x = .int i) ∨ (∃ f, x = .float f)) →
      matchValue k x D = matchValue k (.map [("$is", x)]) D) ∧
    (∀ L, matchValue k (.list L) D = matchValue k (.map [("$in", .list L)]) D) := by
  have dis : detectComparator "$is" = { cType := COMPARATOR_IS, negated := false } := by
    decide
  have din : detectComparator "$in" = { cType := COMPARATOR_IN, negated := false } := by
    decide
  constructor
  · intro x hx
    rw [matchValue_object k _ _ D hk, dis, matchValue_plain k x D hk]
    rcases hx with ⟨s, rfl⟩ | ⟨i, rfl⟩ | ⟨f, rfl⟩ <;> rfl
  · intro L
    rw [matchValue_object k _ _ D hk, din, matchValue_plain k _ D hk]
    rfl

/-- Witness for C18 on the field `a` with the expectation 100. -/
theorem implicit_comparator_explicit_witness :
    isPlainKey "a" = true ∧
    matchValue "a" (.int 100) [("a", .int 100)] =
      matchValue "a" (.map [("$is", .int 100)]) [("a", .int 100)] :=
  ⟨by decide,
    (implicit_comparator_explicit "a" [("a", .int 100)] (by decide)).1 (.int 100)
      (Or.inr (Or.inl ⟨100, rfl⟩))⟩

/-- C19: a comparator of kind UNSET always fails with "unknown comparator", for every actual,
expected and negation flag.  Consequently, for every document `D`, expectation `e` and
`$`-prefixed token `t` that is not a reserved keyword (such as `$unknown`), the top-level keys
`t` and `!t`, the comparator object `{k: {t: e}}` on a plain field `k` and the empty comparator
object `{k: {}}` all make `DoesMatch` return that error, also when nested under `$not`, under
`$or` or in a List. -/
theorem unknown_comparator (k t : String) (D : Doc) (e : Value)
    (hk : isPlainKey k = true) (ht : isUnknownToken t = true) :
    (∀ negated a x, matchComparator { cType := 0, negated := negated } a x =
      .ret false (some "matchComparator: unknown comparator")) ∧
    (∀ key exp,
      ((key = t ∧ exp = e) ∨ (key = "!" ++ t ∧ exp = e) ∨
        (key = k ∧ exp = .map [(t, e)]) ∨ (key = k ∧ exp = .map [])) →
      DoesMatch (.map [(key, exp)]) D =
        .ret false (some "matchComparator: unknown comparator") ∧
      DoesMatch (.map [("$not", .map [(key, exp)])]) D =
        .ret false (some "matchComparator: unknown comparator") ∧
      DoesMatch (.map [("$or", .map [(key, exp)])]) D =
        .ret false (some "matchComparator: unknown comparator") ∧
      DoesMatch (.list [.map [(key, exp)]]) D =
        .ret false (some "matchComparator: unknown comparator") ∧
      DoesMatch (.map [("$or", .list [.map [(key, exp)]])]) D =
        .ret false (some "matchComparator: unknown comparator")) := by
  have htop : matchValue t e D =
      .ret false (some "matchComparator: unknown comparator") := matchValue_unknownToken t e D ht
  have hneg : matchValue ("!" ++ t) e D =
      .ret false (some "matchComparator: unknown comparator") := by
    have h := matchValue_bang t.data e D
    rw [show String.mk t.data = t from rfl, htop] at h
    exact h
  have hobj : matchValue k (.map [(t, e)]) D =
      .ret false (some "matchComparator: unknown comparator") := by
    rw [matchValue_object k _ _ D hk, detectComparator_unknownToken t ht,
      matchComparator_unset]
  have hempty : matchValue k (.map []) D =
      .ret false (some "matchComparator: unknown comparator") := by
    rw [matchValue_plain k _ D hk]
    exact matchComparator_unset false _ _
  refine ⟨matchComparator_unset, ?_⟩
  rintro key exp (⟨rfl, rfl⟩ | ⟨rfl, rfl⟩ | ⟨rfl, rfl⟩ | ⟨rfl, rfl⟩)
  · exact error_through_wrappers _ _ D false _ htop
  · exact error_through_wrappers _ _ D false _ hneg
  · exact error_through_wrappers _ _ D false _ hobj
  · exact error_through_wrappers _ _ D false _ hempty

/-- Witness for C19: `{"$not": {"$unknown": 101}}` against `{"a": 101}`. -/
theorem unknown_comparator_witness :
    (isPlainKey "a" = true ∧ isUnknownToken "$unknown" = true) ∧
    DoesMatch (.map [("$not", .map [("$unknown", .int 101)])]) [("a", .int 101)] =
      .ret false (some "matchComparator: unknown comparator") :=
  ⟨by decide,
    ((unknown_comparator "a" "$unknown" [("a", .int 101)] (.int 101) (by decide)
      (by decide)).2 "$unknown" (.int 101) (Or.inl ⟨rfl, rfl⟩)).2.1⟩

/-- C20: a combinator node that is neither a Map nor a List is rejected.  For a node `v` that
is null, a bool, an int, a float or a string, `matcherAnd(v, D)` and `matcherOr(v, D)` return
the error "unknown query type", and so do `DoesMatch(v, D)`, `DoesMatch({"$and": v}, D)`,
`DoesMatch({"$or": v}, D)`, `DoesMatch({"$not": v}, D)` and `DoesMatch({"$or": [v]}, D)`. -/
theorem unknown_query_shape (v : Value) (D : Doc) (hv : isContainer v = false) :
    matcherAnd v D = .ret false (some "matcherAnd: unknown query type") ∧
    matcherOr v D = .ret false (some "matcherAnd: unknown query type") ∧
    DoesMatch v D = .ret false (some "matcherAnd: unknown query type") ∧
    DoesMatch (.map [("$and", v)]) D = .ret false (some "matcherAnd: unknown query type") ∧
    DoesMatch (.map [("$or", v)]) D = .ret false (some "matcherAnd: unknown query type") ∧
    DoesMatch (.map [("$not", v)]) D = .ret false (some "matcherAnd: unknown query type") ∧
    DoesMatch (.map [("$or", .list [v])]) D =
      .ret false (some "matcherAnd: unknown query type") := by
  have ha := matcherAnd_scalar v D hv
  have ho := matcherOr_scalar v D hv
  refine ⟨ha, ho, ha, ?_, ?_, ?_, ?_⟩
  · rw [DoesMatch, matcherAnd_single, matchValue_and, ha]; rfl
  · rw [DoesMatch, matcherAnd_single, matchValue_or, ho]; rfl
  · rw [DoesMatch, matcherAnd_single, matchValue_not, ha]; rfl
  · rw [DoesMatch, matcherAnd_single, matchValue_or, matcherOr_singleton_list, ha]; rfl

/-- Witness for C20 at the node 101. -/
theorem unknown_query_shape_witness :
    isContainer (.int 101) = false ∧
    DoesMatch (.map [("$or", .list [.int 101])]) [("a", .int 101)] =
      .ret false (some "matcherAnd: unknown query type") :=
  ⟨rfl, (unknown_query_shape (.int 101) [("a", .int 101)] rfl).2.2.2.2.2.2⟩

/-- C21: on a plain field key `k`, an expectation that is a Bool or Null makes
`matchValue(k, expectation, D)` return the error "matchValue: not a map" for every document
`D`, whether or not the field exists in it. -/
theorem matchValue_not_a_map (k : String) (expectation : Value) (D : Doc)
    (hk : isPlainKey k = true) (he : expectation = .null ∨ ∃ b, expectation = .bool b) :
    matchValue k expectation D = .ret false (some "matchValue: not a map") := by
  rw [matchValue_plain k expectation D hk]
  rcases he with rfl | ⟨b, rfl⟩ <;> rfl

/-- Witness for C21: `{"a": true}` against a document holding the field `a`. -/
theorem matchValue_not_a_map_witness :
    isPlainKey "a" = true ∧
    matchValue "a" (.bool true) [("a", .bool true)] =
      .ret false (some "matchValue: not a map") :=
  ⟨by decide, matchValue_not_a_map "a" (.bool true) _ (by decide) (Or.inr ⟨true, rfl⟩)⟩

/-- C22 (failing inputs): the tokens `x!$is` and `$a!$is` start with no `!` and are no
reserved keyword, yet `detectComparator` returns the negated IS comparator for them, and the
query `{"a": {"x!$is": 1}}` returns a boolean instead of the "unknown comparator" error. -/
theorem detectComparator_inner_bang :
    detectComparator "x!$is" = { cType := COMPARATOR_IS, negated := true } ∧
    detectComparator "$a!$is" = { cType := COMPARATOR_IS, negated := true } ∧
    DoesMatch (.map [("a", .map [("x!$is", .int 1)])]) [("a", .int 1)] = .ret false none ∧
    DoesMatch (.map [("a", .map [("x!$is", .int 1)])]) [("a", .int 2)] = .ret true none := by
  refine ⟨by decide, by decide, ?_, ?_⟩
  · rw [DoesMatch, matcherAnd_single, matchValue_object _ _ _ _ (by decide)]
    decide
  · rw [DoesMatch, matcherAnd_single, matchValue_object _ _ _ _ (by decide)]
    decide

/-- C23: negation parity of comparator tokens.  For every `n` and every keyword `K` among
`$not`, `$is`, `$in`, `$gt`, `$gte`, `$lt`, `$lte`, `detectComparator` applied to `n`
characters `!` followed by `K` returns the comparator kind of `K` with `negated` true exactly
when `n` is odd. -/
theorem detectComparator_parity (n : Nat) (K : String) (t : comparatorType)
    (hK : (K, t) ∈ [("$not", COMPARATOR_NOT), ("$is", COMPARATOR_IS), ("$in", COMPARATOR_IN),
      ("$gt", COMPARATOR_GT), ("$gte", COMPARATOR_GTE), ("$lt", COMPARATOR_LT),
      ("$lte", COMPARATOR_LTE)]) :
    detectComparator (String.mk (List.replicate n '!' ++ K.data)) =
      { cType := t, negated := decide (n % 2 = 1) } := by
  simp only [List.mem_cons, Prod.mk.injEq, List.mem_singleton, List.not_mem_nil, or_false] at hK
  rcases hK with ⟨rfl, rfl⟩ | ⟨rfl, rfl⟩ | ⟨rfl, rfl⟩ | ⟨rfl, rfl⟩ | ⟨rfl, rfl⟩ | ⟨rfl, rfl⟩ |
    ⟨rfl, rfl⟩
  · rw [detectComparator_token n "$not" (by decide)]; simp
  · rw [detectComparator_token n "$is" (by decide)]; simp
  · rw [detectComparator_token n "$in" (by decide)]; simp
  · rw [detectComparator_token n "$gt" (by decide)]; simp
  · rw [detectComparator_token n "$gte" (by decide)]; simp
  · rw [detectComparator_token n "$lt" (by decide)]; simp
  · rw [detectComparator_token n "$lte" (by decide)]; simp

/-- Witness for C23: `!!!$gte` is the negated GTE comparator. -/
theorem detectComparator_parity_witness :
    detectComparator "!!!$gte" = { cType := COMPARATOR_GTE, negated := true } :=
  detectComparator_parity 3 "$gte" COMPARATOR_GTE (by simp)

/-- C24 (failing inputs): an IS comparison of two Lists or of two Maps panics, whether they
are equal or differ, instead of returning `(true, nil)` or `(false, nil)`. -/
theorem is_on_containers_panics :
    DoesMatch (.map [("a", .map [("$is", .list [.int 1])])]) [("a", .list [.int 1])] =
      .panic .uncomparable ∧
    DoesMatch (.map [("a", .map [("$is", .list [.int 1])])]) [("a", .list [.int 2])] =
      .panic .uncomparable ∧
    DoesMatch (.map [("a", .map [("$is", .map [("b", .int 1)])])])
      [("a", .map [("b", .int 1)])] = .panic .uncomparable ∧
    DoesMatch (.map [("a", .map [("$is", .map [("b", .int 1)])])])
      [("a", .map [("b", .int 2)])] = .panic .uncomparable := by
  refine ⟨?_, ?_, ?_, ?_⟩ <;>
  · rw [DoesMatch, matcherAnd_single, matchValue_object _ _ _ _ (by decide)]
    rfl

/-- C25: matching ignores the found flag of the resolver.  For a plain field key `k` without
`.`, every expectation `e`, every document `D` that does not contain `k` and every document
`D1` in which `k` is null (such as `D` with `k` set to null), `matchValue(k, e, D)` equals
`matchValue(k, e, D1)`.  In particular `{k: {"$is": null}}` matches `D`, and `{k: {"$gt": 5}}`
fails on `D` with "casting actual to Int failed.". -/
theorem missing_field_is_null (k : String) (e : Value) (D D1 : Doc)
    (hk : isPlainKey k = true) (hdot : '.' ∉ k.data)
    (hD : D.lookup k = none) (hD1 : D1.lookup k = some .null) :
    matchValue k e D = matchValue k e D1 ∧
    matchValue k e D = matchValue k e ((k, .null) :: D) ∧
    matchValue k (.map [("$is", .null)]) D = .ret true none ∧
    matchValue k (.map [("$gt", .int 5)]) D =
      .ret false (some "comparator: casting actual to Int failed.") := by
  have hf : (fetchValue D k).1 = .null := by
    rw [fetchValue_no_dot D k hdot, hD]
  have hf1 : (fetchValue D1 k).1 = .null := by
    rw [fetchValue_no_dot D1 k hdot, hD1]
  have hf2 : (fetchValue ((k, .null) :: D) k).1 = .null := by
    rw [fetchValue_no_dot _ k hdot]; simp [List.lookup]
  refine ⟨?_, ?_, ?_, ?_⟩
  · rw [matchValue_plain k e D hk, matchValue_plain k e D1 hk, hf, hf1]
  · rw [matchValue_plain k e D hk, matchValue_plain k e _ hk, hf, hf2]
  · rw [matchValue_object k _ _ D hk, hf]; decide
  · rw [matchValue_object k _ _ D hk, hf]; decide

/-- Witness for C25: the field `a` against the empty document and against `{"a": null}`. -/
theorem missing_field_is_null_witness :
    (isPlainKey "a" = true ∧ '.' ∉ "a".data) ∧
    matchValue "a" (.map [("$is", .null)]) [] =
      matchValue "a" (.map [("$is", .null)]) [("a", .null)] :=
  ⟨by decide,
    (missing_field_is_null "a" (.map [("$is", .null)]) [] [("a", .null)] (by decide)
      (by decide) rfl (by simp [List.lookup])).1⟩

/-- C27: wrapping a query in `$and` or in a one-element List changes nothing.  For every
query node `Q` and document `D`, `DoesMatch({"$and": Q}, D)` and `DoesMatch([Q], D)` both
equal `DoesMatch(Q, D)`. -/
theorem wrapping_changes_nothing (Q : Value) (D : Doc) :
    DoesMatch (.map [("$and", Q)]) D = DoesMatch Q D ∧
    DoesMatch (.list [Q]) D = DoesMatch Q D := by
  constructor
  · rw [DoesMatch, DoesMatch, matcherAnd_single, matchValue_and, loopReturn_matcherAnd]
  · rw [DoesMatch, DoesMatch, matcherAnd_singleton_list]

/-- C26: an error always comes with a false match.  Whenever `DoesMatch`, `matcherAnd`,
`matcherOr`, `matchValue`, `matchComparator`, `comparatorIn`, `comparatorNot` or
`comparatorGeneric` returns a non-nil error, the boolean it returns is `false`. -/
theorem error_comes_with_false (b : Bool) (err : String) :
    (∀ query D, DoesMatch query D = .ret b (some err) → b = false) ∧
    (∀ query D, matcherAnd query D = .ret b (some err) → b = false) ∧
    (∀ query D, matcherOr query D = .ret b (some err) → b = false) ∧
    (∀ column expectation D, matchValue column expectation D = .ret b (some err) →
      b = false) ∧
    (∀ cmp a e, matchComparator cmp a e = .ret b (some err) → b = false) ∧
    (∀ a e, comparatorIn a e = .ret b (some err) → b = false) ∧
    (∀ a e, comparatorNot a e = .ret b (some err) → b = false) ∧
    (∀ t a e, comparatorGeneric t a e = .ret b (some err) → b = false) :=
  ⟨fun query D h => err_false_of_loopReturn (loopReturn_matcherAnd query D) b err h,
    fun query D h => err_false_of_loopReturn (loopReturn_matcherAnd query D) b err h,
    fun query D h => err_false_of_loopReturn (loopReturn_matcherOr query D) b err h,
    fun column expectation D h => matchValue_err_false column expectation D b err h,
    fun cmp a e h => matchComparator_err_false cmp a e b err h,
    fun a e h => comparatorIn_err_false a e b err h,
    fun a e h => comparatorNot_err_false a e b err h,
    fun t a e h => comparatorGeneric_err_false t a e b err h⟩

/-- C28: evaluation terminates on every query and document without a depth limit.
`DoesMatch` yields an outcome for every input; the recursive calls of `matcherAnd`,
`matcherOr` and `matchValue` are made on a strict sub-term of the query (a value of a Map, an
element of a List) or on a strictly shorter key; `comparatorNot` calls `matchComparator` with
the IS or the IN comparator only; `fetchValue` loops over the segments of the path, one more
than the number of `.` in it; and the query made of `n` nested `{"$and": ...}` wrappers around
the empty Map returns `(true, nil)` for every `n` and every document. -/
theorem evaluation_terminates :
    (∀ query D, ∃ r, DoesMatch query D = r) ∧
    (∀ kvs k v, (k, v) ∈ kvs → sizeOf v < sizeOf (Value.map kvs)) ∧
    (∀ xs x, x ∈ xs → sizeOf x < sizeOf (Value.list xs)) ∧
    (∀ (column : String) c rest, column.data = c :: rest →
      (String.mk rest).length < column.length) ∧
    (∀ a e, comparatorNot a e = invert (matchComparator (comparatorNotSelect e) a e) ∧
      ((comparatorNotSelect e).cType = COMPARATOR_IN ∨
        (comparatorNotSelect e).cType = COMPARATOR_IS)) ∧
    (∀ D column, fetchValue D column = fetchLoop D (splitPath column.data) ∧
      (splitPath column.data).length = column.data.count '.' + 1) ∧
    (∀ n D, DoesMatch (nestAnd n) D = .ret true none) := by
  refine ⟨fun query D => ⟨_, rfl⟩, sizeOf_lt_of_mem_map, sizeOf_lt_of_mem_list, ?_, ?_, ?_,
    doesMatch_nestAnd⟩
  · intro column c rest h
    simp [String.length, h]
  · intro a e
    refine ⟨comparatorNot_eq a e, ?_⟩
    cases e <;> simp [comparatorNotSelect]
  · intro D column
    exact ⟨rfl, splitPath_length column.data⟩

end Gjsonquery
